import Mathlib

/-!
Verification development for the serde-llsd codec library (Rust).

The library defines one abstract value tree (`LLSDValue`) and three wire
encodings of it: binary, XML, and "notation" (text/byte dual mode), plus an
auto-detecting dispatcher.  This file is a shallow embedding of the library's
code into Lean: Rust byte slices and strings are `List Nat` (bytes, or Unicode
scalar values), fallible functions return `Except RErr`, recursive-descent
parsers take an explicit fuel argument (the Rust recursion is bounded only by
the input; fuel is chosen generously so that exhaustion is unreachable for the
inputs reasoned about), and Rust panics/aborts are an explicit `RErr.panic`
outcome, distinct from ordinary `Result` errors.

External crates used by the library (std UTF-8 validation, base64, hex,
ascii85, urlencoding, uuid, chrono, quick-xml) are modelled from their
documented behaviour; each such definition carries a doc comment naming the
crate function it models.
-/

namespace SerdeLLSD

/-- The LLSD value tree, translated from `LLSDValue` in `src/lib.rs`.
`Real` carries the IEEE-754 bit pattern of the `f64`; strings (and the text
payloads of URI and map keys) are lists of Unicode scalar values; `Binary` and
`UUID` are byte lists (a UUID is exactly 16 bytes); `Map` is the `HashMap`
modelled as an association list (iteration order of the Rust `HashMap` is
arbitrary; no theorem below depends on map iteration order). -/
inductive LLSD where
  | undefined : LLSD
  | boolean (b : Bool) : LLSD
  | real (bits : Nat) : LLSD
  | integer (v : Int) : LLSD
  | uuid (bytes : List Nat) : LLSD
  | string (s : List Nat) : LLSD
  | date (secs : Int) : LLSD
  | uri (s : List Nat) : LLSD
  | binary (b : List Nat) : LLSD
  | map (entries : List (List Nat × LLSD)) : LLSD
  | array (items : List LLSD) : LLSD

/-- Outcome of a fallible Rust call.  `msg` is an ordinary `anyhow` error
(message payloads that no claim depends on are abbreviated to a fixed
descriptive string); `notRecognized` is the dispatcher's "format not
recognized" error carrying its input snippet; `utf8` is a
`std::str::Utf8Error`; `panic` is a Rust panic or abort (e.g.
`Option::unwrap` on `None`, or `Vec::with_capacity` capacity overflow) — not
an error value in Rust at all, but a crash; `fuelOut` is an artifact of the
fuel-bounded embedding and is unreachable for the fuel policies used. -/
inductive RErr where
  | msg (s : String) : RErr
  | notRecognized (snippet : List Nat) : RErr
  | utf8 : RErr
  | panic (s : String) : RErr
  | fuelOut : RErr
deriving DecidableEq, Repr

/-- Shorthand for the result of a fallible call. -/
abbrev RRes (α : Type) : Type := Except RErr α

/-- Unicode scalar values of a Lean string, used to write concrete inputs. -/
def strCps (s : String) : List Nat := s.data.map Char.toNat

/-- Big-endian value of a byte list. -/
def beToNat (bytes : List Nat) : Nat := bytes.foldl (fun a b => a * 256 + b) 0

/-- Big-endian byte list of width `w` for `n` (modulo `2 ^ (8 * w)`), as
produced by the Rust `to_be_bytes` methods. -/
def natToBe (w n : Nat) : List Nat :=
  (List.range w).reverse.map (fun i => n / 256 ^ i % 256)

/-- Two's-complement reading of a `w * 8`-bit big-endian value, as in
`i32::from_be_bytes` / `i64::from_be_bytes`. -/
def twosComp (w n : Nat) : Int :=
  if n < 2 ^ (8 * w - 1) then (n : Int) else (n : Int) - 2 ^ (8 * w)

/-- Two's-complement encoding of an integer into `w` bytes big-endian, as in
`i32::to_be_bytes` / `i64::to_be_bytes`. -/
def intToBe (w : Nat) (v : Int) : List Nat :=
  natToBe w (v % (2 ^ (8 * w) : Nat)).toNat

/-- Test for `u8::is_ascii_whitespace` (space, tab, newline, form feed,
carriage return). -/
def isAsciiWs (b : Nat) : Bool :=
  b = 32 || b = 9 || b = 10 || b = 12 || b = 13

/-- Test modelling Rust `char::is_whitespace` (the Unicode `White_Space`
property). -/
def isUnicodeWs (c : Nat) : Bool :=
  c = 32 || c = 9 || c = 10 || c = 11 || c = 12 || c = 13 ||
  c = 0x85 || c = 0xA0 || c = 0x1680 ||
  (0x2000 ≤ c && c ≤ 0x200A) || c = 0x2028 || c = 0x2029 ||
  c = 0x202F || c = 0x205F || c = 0x3000

/-- The `trim_ascii_start` helper from `src/de/mod.rs`: drop leading ASCII
whitespace bytes. -/
def trim_ascii_start : List Nat → List Nat
  | [] => []
  | b :: rest => if isAsciiWs b then trim_ascii_start rest else b :: rest

/-- Rust `str::trim_start` (drop leading Unicode whitespace). -/
def trimUnicodeStart : List Nat → List Nat
  | [] => []
  | c :: rest => if isUnicodeWs c then trimUnicodeStart rest else c :: rest

/-- Rust `str::trim_end` on scalar values. -/
def trimUnicodeEnd (l : List Nat) : List Nat :=
  (trimUnicodeStart l.reverse).reverse

/-- Rust `str::trim` on scalar values. -/
def trimUnicode (l : List Nat) : List Nat := trimUnicodeEnd (trimUnicodeStart l)

/-- UTF-8 encoding of one Unicode scalar value (Rust `char` encoding). -/
def utf8EncodeChar (c : Nat) : List Nat :=
  if c < 0x80 then [c]
  else if c < 0x800 then [0xC0 + c / 64, 0x80 + c % 64]
  else if c < 0x10000 then
    [0xE0 + c / 4096, 0x80 + c / 64 % 64, 0x80 + c % 64]
  else
    [0xF0 + c / 262144, 0x80 + c / 4096 % 64, 0x80 + c / 64 % 64, 0x80 + c % 64]

/-- UTF-8 encoding of a scalar-value list (Rust `str::as_bytes`). -/
def utf8Encode (cps : List Nat) : List Nat :=
  (cps.map utf8EncodeChar).flatten

/-- Test for a UTF-8 continuation byte. -/
def isCont (b : Nat) : Bool := 0x80 ≤ b && b < 0xC0

/-- Decoding of one non-ASCII UTF-8 sequence whose lead byte is `b`:
returns the scalar value and the bytes after the sequence, or `none` when
the sequence is invalid (overlong, surrogate, out of range, truncated). -/
def utf8Multi (b : Nat) (rest : List Nat) : Option (Nat × List Nat) :=
  if b < 0xC2 then none
  else if b < 0xE0 then
    match rest with
    | b2 :: rest2 =>
      if isCont b2 then some ((b - 0xC0) * 64 + (b2 - 0x80), rest2) else none
    | _ => none
  else if b < 0xF0 then
    match rest with
    | b2 :: b3 :: rest3 =>
      if isCont b2 && isCont b3 then
        let c := (b - 0xE0) * 4096 + (b2 - 0x80) * 64 + (b3 - 0x80)
        if c < 0x800 || (0xD800 ≤ c && c < 0xE000) then none
        else some (c, rest3)
      else none
    | _ => none
  else if b < 0xF5 then
    match rest with
    | b2 :: b3 :: b4 :: rest4 =>
      if isCont b2 && isCont b3 && isCont b4 then
        let c := (b - 0xF0) * 262144 + (b2 - 0x80) * 4096 + (b3 - 0x80) * 64 + (b4 - 0x80)
        if c < 0x10000 || 0x110000 ≤ c then none
        else some (c, rest4)
      else none
    | _ => none
  else none

/-- Fuelled worker for `utf8Decode`; every character consumes at least one
byte, so fuel one past the length is always sufficient. -/
def utf8DecodeF : Nat → List Nat → Option (List Nat)
  | 0, _ => none
  | _ + 1, [] => some []
  | f + 1, b :: rest =>
    if b < 0x80 then (utf8DecodeF f rest).map (b :: ·)
    else
      match utf8Multi b rest with
      | some (c, rest') => (utf8DecodeF f rest').map (c :: ·)
      | none => none

/-- Strict UTF-8 decoding, modelling `std::str::from_utf8` followed by
`str::chars`: rejects overlong encodings, surrogates, values above U+10FFFF
and truncated sequences. -/
def utf8Decode (l : List Nat) : Option (List Nat) := utf8DecodeF (l.length + 1) l

/-- Fuelled worker for `utf8Lossy`; each step consumes at least one byte, so
fuel equal to the input length is always sufficient. -/
def utf8LossyF : Nat → List Nat → List Nat
  | 0, _ => []
  | _, [] => []
  | f + 1, b :: rest =>
    if b < 0x80 then b :: utf8LossyF f rest
    else if 0xC2 ≤ b && b < 0xE0 then
      match rest with
      | b2 :: rest2 =>
        if isCont b2 then ((b - 0xC0) * 64 + (b2 - 0x80)) :: utf8LossyF f rest2
        else 0xFFFD :: utf8LossyF f rest
      | _ => [0xFFFD]
    else if 0xE0 ≤ b && b < 0xF0 then
      match rest with
      | b2 :: b3 :: rest3 =>
        if isCont b2 && isCont b3 then
          let c := (b - 0xE0) * 4096 + (b2 - 0x80) * 64 + (b3 - 0x80)
          if c < 0x800 || (0xD800 ≤ c && c < 0xE000) then 0xFFFD :: utf8LossyF f rest
          else c :: utf8LossyF f rest3
        else 0xFFFD :: utf8LossyF f rest
      | _ => 0xFFFD :: utf8LossyF f rest
    else if 0xF0 ≤ b && b < 0xF5 then
      match rest with
      | b2 :: b3 :: b4 :: rest4 =>
        if isCont b2 && isCont b3 && isCont b4 then
          let c := (b - 0xF0) * 262144 + (b2 - 0x80) * 4096 + (b3 - 0x80) * 64 + (b4 - 0x80)
          if c < 0x10000 || 0x110000 ≤ c then 0xFFFD :: utf8LossyF f rest
          else c :: utf8LossyF f rest4
        else 0xFFFD :: utf8LossyF f rest
      | _ => 0xFFFD :: utf8LossyF f rest
    else 0xFFFD :: utf8LossyF f rest

/-- Lossy UTF-8 decoding, modelling `String::from_utf8_lossy`: invalid bytes
become U+FFFD.  (The exact grouping of invalid bytes into replacement
characters is simplified to one replacement per undecodable byte; no theorem
below depends on the replacement granularity.) -/
def utf8Lossy (l : List Nat) : List Nat := utf8LossyF l.length l

/-- Test for an ASCII decimal digit. -/
def isDigit (c : Nat) : Bool := 48 ≤ c && c ≤ 57

/-- Value of a list of ASCII decimal digits. -/
def digitsVal (l : List Nat) : Nat := l.foldl (fun a c => a * 10 + (c - 48)) 0

/-- Decimal digits of `n`, as scalar values (used by the serializers for
`format!` of integers and lengths). -/
def natDigits (n : Nat) : List Nat :=
  (Nat.toDigits 10 n).map Char.toNat

/-- Rust `format!` of an `i64`/`i32` value. -/
def intFormat (v : Int) : List Nat :=
  if v < 0 then 45 :: natDigits (-v).toNat else natDigits v.toNat

/-- Signed decimal integer parsing with a range check, modelling Rust
`str::parse::<iN>` (`from_str_radix` 10): an optional single leading sign,
then one or more digits, nothing else; overflow is an error. -/
def parseIntRange (lo hi : Int) (l : List Nat) : Option Int :=
  let (neg, ds) : Bool × List Nat :=
    match l with
    | 43 :: rest => (false, rest)
    | 45 :: rest => (true, rest)
    | rest => (false, rest)
  if ds.isEmpty || ds.any (fun c => !isDigit c) then none
  else
    let v : Int := if neg then -(digitsVal ds : Int) else (digitsVal ds : Int)
    if lo ≤ v ∧ v ≤ hi then some v else none

/-- Rust `str::parse::<i32>`. -/
def parseI32 (l : List Nat) : Option Int :=
  parseIntRange (-(2 ^ 31)) (2 ^ 31 - 1) l

/-- Rust `str::parse::<bool>` accepts exactly `true` and `false`. -/
def parseRustBool (l : List Nat) : Option Bool :=
  if l = strCps "true" then some true
  else if l = strCps "false" then some false
  else none

/-!  IEEE-754 double model.  `LLSD.real` carries the 64-bit pattern.  The
conversions between decimal text and bit patterns below model Rust std's
`f64::from_str` and `Display`.  `from_str` rounds to nearest (ties to even);
`Display` prints the shortest decimal that reads back to the same value — here
it is modelled as the exact decimal expansion of the stored value, which also
reads back to the same value.  No theorem in this file depends on a particular
real value's text form. -/

/-- Round-half-to-even division `num / den`. -/
def rhe (num den : Nat) : Nat :=
  let q := num / den
  let r := num % den
  if 2 * r < den then q
  else if den < 2 * r then q + 1
  else if q % 2 = 0 then q else q + 1

/-- Fuelled floor base-2 logarithm (fuel at least the bit length). -/
def nlog2 : Nat → Nat → Nat
  | 0, _ => 0
  | f + 1, n => if 2 ≤ n then nlog2 f (n / 2) + 1 else 0

/-- Floor of the base-2 logarithm of `n / d` for positive `n`, `d`. -/
def flog2 (n d : Nat) : Int :=
  let c : Int := (nlog2 n n : Int) - (nlog2 d d : Int)
  if 0 ≤ c then (if d * 2 ^ c.toNat ≤ n then c else c - 1)
  else (if d ≤ n * 2 ^ (-c).toNat then c else c - 1)

/-- Bit pattern of positive infinity. -/
def infBits : Nat := 0x7FF0000000000000

/-- Bit pattern of the NaN produced by `"NaN".parse::<f64>()`. -/
def nanBits : Nat := 0x7FF8000000000000

/-- Assemble a double's bits from sign, unbiased exponent and full mantissa. -/
def mkBits (neg : Bool) (e : Int) (m : Nat) : Nat :=
  (if neg then 2 ^ 63 else 0) + (e + 1023).toNat * 2 ^ 52 + (m - 2 ^ 52)

/-- Nearest IEEE-754 double (ties to even) for the rational
`(-1)^neg * n / d`, `d > 0`, as a bit pattern. -/
def f64OfRat (neg : Bool) (n d : Nat) : Nat :=
  if n = 0 then (if neg then 2 ^ 63 else 0)
  else
    let e := flog2 n d
    if 1024 ≤ e then (if neg then 2 ^ 63 + infBits else infBits)
    else if -1022 ≤ e then
      let s : Int := 52 - e
      let m := if 0 ≤ s then rhe (n * 2 ^ s.toNat) d else rhe n (d * 2 ^ (-s).toNat)
      if m = 2 ^ 53 then
        (if e + 1 ≥ 1024 then (if neg then 2 ^ 63 + infBits else infBits)
         else mkBits neg (e + 1) (2 ^ 52))
      else mkBits neg e m
    else
      let m := rhe (n * 2 ^ 1074) d
      if m = 2 ^ 52 then mkBits neg (-1022) (2 ^ 52)
      else (if neg then 2 ^ 63 + m else m)

/-- Lowercase the ASCII letters of a scalar-value list (`str::to_lowercase`
restricted to ASCII, which is all the uses below compare against). -/
def asciiLower (l : List Nat) : List Nat :=
  l.map (fun c => if 65 ≤ c && c ≤ 90 then c + 32 else c)

/-- Decimal-to-double conversion modelling Rust `str::parse::<f64>`:
grammar `[+-]? (inf|infinity|nan | digits [. digits*]? | . digits+)
([eE][+-]?digits)?` (keywords case-insensitive, exponent only on numeric
forms), rounded to nearest, ties to even; out-of-range gives infinity.
Returns the bit pattern. -/
def parseF64 (l : List Nat) : Option Nat :=
  let (neg, body) : Bool × List Nat :=
    match l with
    | 43 :: rest => (false, rest)
    | 45 :: rest => (true, rest)
    | rest => (false, rest)
  let low := asciiLower body
  if low = strCps "inf" || low = strCps "infinity" then
    some (if neg then 2 ^ 63 + infBits else infBits)
  else if low = strCps "nan" then
    some (if neg then 2 ^ 63 + nanBits else nanBits)
  else
    let intPart := body.takeWhile isDigit
    let afterInt := body.drop intPart.length
    let (fracPart, afterFrac) : List Nat × List Nat :=
      match afterInt with
      | 46 :: rest => (rest.takeWhile isDigit, (rest.drop (rest.takeWhile isDigit).length))
      | rest => ([], rest)
    let hadDot := afterInt.head? = some 46
    if intPart.isEmpty && fracPart.isEmpty then none
    else
      let expVal : Option Int :=
        match afterFrac with
        | [] => some 0
        | 101 :: rest => parseIntRange (-(2 ^ 40)) (2 ^ 40) rest
        | 69 :: rest => parseIntRange (-(2 ^ 40)) (2 ^ 40) rest
        | _ => none
      let _ := hadDot
      match expVal with
      | none => none
      | some ex =>
        let mantissa := digitsVal (intPart ++ fracPart)
        let tens : Int := ex - fracPart.length
        if 0 ≤ tens then some (f64OfRat neg (mantissa * 10 ^ tens.toNat) 1)
        else some (f64OfRat neg mantissa (10 ^ (-tens).toNat))

/-- Exact decimal expansion of the double with bit pattern `bits`, as scalar
values.  Models Rust `Display` for `f64` up to choice of decimal digits (see
the section comment above); NaN renders as `NaN` as in Rust. -/
def f64Format (bits : Nat) : List Nat :=
  let neg : Bool := 2 ^ 63 ≤ bits % 2 ^ 64
  let e : Nat := bits / 2 ^ 52 % 2 ^ 11
  let m : Nat := bits % 2 ^ 52
  let sign : List Nat := if neg then [45] else []
  if e = 2047 then
    if m = 0 then sign ++ strCps "inf" else strCps "NaN"
  else
    let mfull := if e = 0 then m else 2 ^ 52 + m
    let p : Int := (e : Int) - 1075 + (if e = 0 then 1 else 0)
    if mfull = 0 then sign ++ [48]
    else if 0 ≤ p then sign ++ natDigits (mfull * 2 ^ p.toNat)
    else
      let k := (-p).toNat
      let ip := mfull / 2 ^ k
      let fr := mfull % 2 ^ k
      if fr = 0 then sign ++ natDigits ip
      else
        let digits := natDigits (fr * 5 ^ k)
        let padded := List.replicate (k - digits.length) 48 ++ digits
        let trimmed := (padded.reverse.dropWhile (fun c => c = 48)).reverse
        sign ++ natDigits ip ++ [46] ++ trimmed

/-- Hex digit value (`0-9a-fA-F`). -/
def hexVal (c : Nat) : Option Nat :=
  if 48 ≤ c && c ≤ 57 then some (c - 48)
  else if 97 ≤ c && c ≤ 102 then some (c - 87)
  else if 65 ≤ c && c ≤ 70 then some (c - 55)
  else none

/-- Pairwise hex decoding, modelling `hex::decode`: even length, every
character a hex digit. -/
def hexDecode : List Nat → Option (List Nat)
  | [] => some []
  | c1 :: c2 :: rest =>
    match hexVal c1, hexVal c2 with
    | some h, some lo => (hexDecode rest).map ((h * 16 + lo) :: ·)
    | _, _ => none
  | _ => none

/-- Base64 value of one standard-alphabet character. -/
def b64Val (c : Nat) : Option Nat :=
  if 65 ≤ c && c ≤ 90 then some (c - 65)
  else if 97 ≤ c && c ≤ 122 then some (c - 71)
  else if 48 ≤ c && c ≤ 57 then some (c + 4)
  else if c = 43 then some 62
  else if c = 47 then some 63
  else none

/-- Base64 decoding of the standard alphabet with mandatory canonical
padding, modelling `base64::engine::general_purpose::STANDARD.decode` (and
the older `base64::decode`). -/
def base64Decode : List Nat → Option (List Nat)
  | [] => some []
  | [c1, c2, 61, 61] =>
    match b64Val c1, b64Val c2 with
    | some v1, some v2 =>
      if v2 % 16 = 0 then some [v1 * 4 + v2 / 16] else none
    | _, _ => none
  | [c1, c2, c3, 61] =>
    match b64Val c1, b64Val c2, b64Val c3 with
    | some v1, some v2, some v3 =>
      if v3 % 4 = 0 then some [v1 * 4 + v2 / 16, v2 % 16 * 16 + v3 / 4] else none
    | _, _, _ => none
  | c1 :: c2 :: c3 :: c4 :: rest =>
    match b64Val c1, b64Val c2, b64Val c3, b64Val c4 with
    | some v1, some v2, some v3, some v4 =>
      (base64Decode rest).map
        ([v1 * 4 + v2 / 16, v2 % 16 * 16 + v3 / 4, v3 % 4 * 64 + v4] ++ ·)
    | _, _, _, _ => none
  | _ => none

/-- One base64 character of the standard alphabet. -/
def b64Char (v : Nat) : Nat :=
  if v < 26 then 65 + v
  else if v < 52 then 97 + (v - 26)
  else if v < 62 then 48 + (v - 52)
  else if v = 62 then 43 else 47

/-- Base64 encoding with padding, modelling
`base64::engine::general_purpose::STANDARD.encode`. -/
def base64Encode : List Nat → List Nat
  | [] => []
  | [b1] => [b64Char (b1 / 4), b64Char (b1 % 4 * 16), 61, 61]
  | [b1, b2] => [b64Char (b1 / 4), b64Char (b1 % 4 * 16 + b2 / 16), b64Char (b2 % 16 * 4), 61]
  | b1 :: b2 :: b3 :: rest =>
    [b64Char (b1 / 4), b64Char (b1 % 4 * 16 + b2 / 16),
     b64Char (b2 % 16 * 4 + b3 / 64), b64Char (b3 % 64)] ++ base64Encode rest

/-- Fuelled worker for `ascii85Decode`, over the whitespace-free character
list; each step consumes at least one character. -/
def ascii85Go : Nat → List Nat → Option (List Nat)
  | 0, _ => none
  | _ + 1, [] => some []
  | f + 1, 122 :: rest => (ascii85Go f rest).map ([0, 0, 0, 0] ++ ·)
  | f + 1, c :: t =>
    let g := (c :: t).take 5
    let rest := (c :: t).drop 5
    if g.any (fun ch => ch < 33 || 117 < ch) then none
    else
      let padded := g ++ List.replicate (5 - g.length) 117
      let v := padded.foldl (fun a ch => a * 85 + (ch - 33)) 0
      if g.length ≤ 1 then none
      else
        let bytes := [v / 2 ^ 24 % 256, v / 2 ^ 16 % 256, v / 2 ^ 8 % 256, v % 256]
        (ascii85Go f rest).map ((bytes.take (g.length - 1)) ++ ·)

/-- ASCII85 decoding (Adobe variant: characters `!`..`u`, `z` for four zero
bytes, whitespace ignored, partial final group padded with `u`), modelling the
`ascii85` crate's `decode`. -/
def ascii85Decode (l : List Nat) : Option (List Nat) :=
  ascii85Go (l.length + 1) (l.filter (fun c => !isAsciiWs c))

/-- Unreserved characters kept verbatim by the `urlencoding` crate
(`A-Z a-z 0-9 - . _ ~`). -/
def isUrlUnreserved (c : Nat) : Bool :=
  (65 ≤ c && c ≤ 90) || (97 ≤ c && c ≤ 122) || (48 ≤ c && c ≤ 57) ||
  c = 45 || c = 46 || c = 95 || c = 126

/-- Upper-case hex digit. -/
def hexDigitUpper (v : Nat) : Nat := if v < 10 then 48 + v else 55 + v

/-- Percent-encoding modelling `urlencoding::encode`: unreserved characters
pass through, every other byte of the UTF-8 form becomes `%XX`. -/
def percentEncode (cps : List Nat) : List Nat :=
  ((utf8Encode cps).map (fun b =>
    if isUrlUnreserved b then [b]
    else [37, hexDigitUpper (b / 16), hexDigitUpper (b % 16)])).flatten

/-- Percent-decoding to bytes: `%XX` becomes the byte, an invalid escape is
kept verbatim (as the `urlencoding` crate does). -/
def percentDecodeBytes : List Nat → List Nat
  | [] => []
  | 37 :: c1 :: c2 :: rest =>
    match hexVal c1, hexVal c2 with
    | some h, some lo => (h * 16 + lo) :: percentDecodeBytes rest
    | _, _ => 37 :: percentDecodeBytes (c1 :: c2 :: rest)
  | c :: rest => c :: percentDecodeBytes rest

/-- Percent-decoding modelling `urlencoding::decode`: decode the UTF-8 form,
replace escapes, and require the result to be valid UTF-8. -/
def percentDecode (cps : List Nat) : Option (List Nat) :=
  utf8Decode (percentDecodeBytes (utf8Encode cps))

/-- Scalar values of the canonical hyphenated form of a 16-byte UUID
(`uuid::Uuid::to_string`, lowercase hex). -/
def uuidFormat (bytes : List Nat) : List Nat :=
  let hexOf := fun (b : Nat) =>
    [ (fun v => if v < 10 then 48 + v else 87 + v) (b / 16 % 16),
      (fun v => if v < 10 then 48 + v else 87 + v) (b % 16) ]
  let hx := (bytes.map hexOf).flatten
  hx.take 8 ++ [45] ++ (hx.drop 8).take 4 ++ [45] ++ (hx.drop 12).take 4 ++ [45] ++
    (hx.drop 16).take 4 ++ [45] ++ hx.drop 20

/-- Hex decoding of exactly 32 digits into 16 bytes. -/
def hex32ToBytes (l : List Nat) : Option (List Nat) :=
  if l.length = 32 then hexDecode l else none

/-- UUID text parsing, modelling `uuid::Uuid::parse_str`: accepts the
36-character hyphenated form (hyphens at positions 8, 13, 18, 23) and the
32-character simple form. -/
def uuidParse (l : List Nat) : Option (List Nat) :=
  if l.length = 36 then
    match l.take 8, (l.drop 8).take 1, (l.drop 9).take 4, (l.drop 13).take 1,
          (l.drop 14).take 4, (l.drop 18).take 1, (l.drop 19).take 4,
          (l.drop 23).take 1, l.drop 24 with
    | g1, [45], g2, [45], g3, [45], g4, [45], g5 =>
      hex32ToBytes (g1 ++ g2 ++ g3 ++ g4 ++ g5)
    | _, _, _, _, _, _, _, _, _ => none
  else if l.length = 32 then hex32ToBytes l
  else none

/-!  Calendar arithmetic for RFC 3339 dates (the `chrono` crate).  The
days-from-civil-date conversion is the standard proleptic-Gregorian
algorithm. -/

/-- Days since 1970-01-01 of the civil date `y-m-d`. -/
def daysFromCivil (y : Int) (m d : Nat) : Int :=
  let y' := if m ≤ 2 then y - 1 else y
  let era : Int := (if 0 ≤ y' then y' else y' - 399) / 400
  let yoe : Int := y' - era * 400
  let mp : Int := ((m : Int) + 9) % 12
  let doy : Int := (153 * mp + 2) / 5 + (d : Int) - 1
  let doe : Int := yoe * 365 + yoe / 4 - yoe / 100 + doy
  era * 146097 + doe - 719468

/-- Civil date `(y, m, d)` of a day count since 1970-01-01. -/
def civilFromDays (z0 : Int) : Int × Nat × Nat :=
  let z := z0 + 719468
  let era : Int := (if 0 ≤ z then z else z - 146096) / 146097
  let doe : Int := z - era * 146097
  let yoe : Int := (doe - doe / 1460 + doe / 36524 - doe / 146096) / 365
  let y : Int := yoe + era * 400
  let doy : Int := doe - (365 * yoe + yoe / 4 - yoe / 100)
  let mp : Int := (5 * doy + 2) / 153
  let d : Int := doy - (153 * mp + 2) / 5 + 1
  let m : Int := if mp < 10 then mp + 3 else mp - 9
  ((if m ≤ 2 then y + 1 else y), m.toNat, d.toNat)

/-- Leap-year test. -/
def isLeap (y : Int) : Bool := y % 4 = 0 && (y % 100 ≠ 0 || y % 400 = 0)

/-- Days in a month. -/
def daysInMonth (y : Int) (m : Nat) : Nat :=
  if m = 2 then (if isLeap y then 29 else 28)
  else if m = 4 || m = 6 || m = 9 || m = 11 then 30
  else 31

/-- Exactly-n-digit number. -/
def fixedDigits (n : Nat) (l : List Nat) : Option Nat :=
  if l.length = n && l.all isDigit then some (digitsVal l) else none

/-- RFC 3339 timestamp parsing to epoch seconds (truncating fractional
seconds), modelling `chrono::DateTime::parse_from_rfc3339` followed by
`.timestamp()`: `YYYY-MM-DDThh:mm:ss[.frac](Z|±hh:mm)`. -/
def rfc3339Parse (l : List Nat) : Option Int := do
  let y ← fixedDigits 4 (l.take 4)
  guard ((l.drop 4).take 1 = [45])
  let mo ← fixedDigits 2 ((l.drop 5).take 2)
  guard ((l.drop 7).take 1 = [45])
  let d ← fixedDigits 2 ((l.drop 8).take 2)
  guard ((l.drop 10).take 1 = [84] || (l.drop 10).take 1 = [116])
  let h ← fixedDigits 2 ((l.drop 11).take 2)
  guard ((l.drop 13).take 1 = [58])
  let mi ← fixedDigits 2 ((l.drop 14).take 2)
  guard ((l.drop 16).take 1 = [58])
  let s ← fixedDigits 2 ((l.drop 17).take 2)
  let rest := l.drop 19
  let (frac, tz) : List Nat × List Nat :=
    match rest with
    | 46 :: r => (r.takeWhile isDigit, r.drop (r.takeWhile isDigit).length)
    | r => ([], r)
  if rest.head? = some 46 && frac.isEmpty then none
  else do
  let off : Int ←
    match tz with
    | [90] => some 0
    | [122] => some 0
    | 43 :: r => do
      let oh ← fixedDigits 2 (r.take 2)
      guard ((r.drop 2).take 1 = [58] && r.length = 5)
      let om ← fixedDigits 2 (r.drop 3)
      pure ((oh : Int) * 3600 + om * 60)
    | 45 :: r => do
      let oh ← fixedDigits 2 (r.take 2)
      guard ((r.drop 2).take 1 = [58] && r.length = 5)
      let om ← fixedDigits 2 (r.drop 3)
      pure (-((oh : Int) * 3600 + om * 60))
    | _ => none
  if 1 ≤ mo ∧ mo ≤ 12 ∧ 1 ≤ d ∧ d ≤ daysInMonth y mo ∧ h ≤ 23 ∧ mi ≤ 59 ∧ s ≤ 60 then
    pure (daysFromCivil y mo d * 86400 + h * 3600 + mi * 60 + s - off)
  else none

/-- Zero-padded fixed-width decimal. -/
def padDigits (w n : Nat) : List Nat :=
  let ds := natDigits n
  List.replicate (w - ds.length) 48 ++ ds

/-- Earliest epoch second representable by a `chrono` `DateTime<Utc>`
(`chrono::DateTime::<Utc>::MIN_UTC.timestamp()`), modelled from the chrono
crate: `timestamp_opt` returns `None` below it. -/
def chronoMinTs : Int := -8334601228800

/-- Latest epoch second representable by a `chrono` `DateTime<Utc>`. -/
def chronoMaxTs : Int := 8210266876799

/-- Range test modelling `chrono::Utc.timestamp_opt(secs, 0)` returning a
valid value. -/
def chronoTsInRange (secs : Int) : Bool :=
  chronoMinTs ≤ secs && secs ≤ chronoMaxTs

/-- RFC 3339 UTC rendering with seconds precision, modelling
`to_rfc3339_opts(SecondsFormat::Secs, true)`. -/
def rfc3339Format (t : Int) : List Nat :=
  let days := (t - (t % 86400 + 86400) % 86400) / 86400
  let secs := ((t % 86400 + 86400) % 86400).toNat
  let (y, mo, d) := civilFromDays days
  let ys := if y < 0 then 45 :: padDigits 4 (-y).toNat else padDigits 4 y.toNat
  ys ++ [45] ++ padDigits 2 mo ++ [45] ++ padDigits 2 d ++ [84] ++
    padDigits 2 (secs / 3600) ++ [58] ++ padDigits 2 (secs / 60 % 60) ++ [58] ++
    padDigits 2 (secs % 60) ++ [90]

/-!  Binary codec, translated from `src/de/binary.rs` and
`src/ser/binary.rs`.  The byte cursor is modelled by state passing: each
reader takes the remaining bytes and returns the value read together with the
bytes left. -/

/-- The binary sentinel `LLSDBINARYSENTINEL` (= `LLSDBINARYPREFIX`), the byte
string of the Rust literal `b"<? LLSD/Binary ?>\n"`. -/
def LLSDBINARYSENTINEL : List Nat := strCps "<? LLSD/Binary ?>\n"

namespace BinaryDe

/-- Read one byte (`read_u8` via `read_exact`); end of input is an error. -/
def read_u8 : List Nat → RRes (Nat × List Nat)
  | [] => .error (.msg "failed to fill whole buffer")
  | b :: rest => .ok (b, rest)

/-- Read exactly `n` bytes (`read_exact`). -/
def readExact : Nat → List Nat → RRes (List Nat × List Nat)
  | 0, l => .ok ([], l)
  | n + 1, [] => .error (.msg "failed to fill whole buffer")
  | n + 1, b :: rest => (readExact n rest).map (fun (bs, r) => (b :: bs, r))

/-- Read a 4-byte big-endian unsigned length (`read_u32`). -/
def read_u32 (l : List Nat) : RRes (Nat × List Nat) :=
  (readExact 4 l).map (fun (bs, r) => (beToNat bs, r))

/-- Read a length-prefixed byte string (`read_variable`). -/
def read_variable (l : List Nat) : RRes (List Nat × List Nat) := do
  let (n, l) ← read_u32 l
  readExact n l

/-- Decode length-prefixed bytes as UTF-8 text, as in
`std::str::from_utf8(&read_variable(cursor)?)?`. -/
def readUtf8 (l : List Nat) : RRes (List Nat × List Nat) := do
  let (bs, l) ← read_variable l
  match utf8Decode bs with
  | some cps => .ok (cps, l)
  | none => .error .utf8

/-- Loop reading `n` map entries, translated from the `b'{'` arm of
`parse_value`; `pv` is the recursive value parser.  Duplicate keys overwrite
(`dict.insert`). -/
def mapEntries (pv : List Nat → RRes (LLSD × List Nat)) :
    Nat → List (List Nat × LLSD) → List Nat → RRes (List (List Nat × LLSD) × List Nat)
  | 0, acc, l => .ok (acc, l)
  | n + 1, acc, l => do
    let (kp, l) ← read_u8 l
    if kp = 107 then do
      let (key, l) ← readUtf8 l
      let (v, l) ← pv l
      mapEntries pv n ((acc.filter (fun e => e.1 ≠ key)) ++ [(key, v)]) l
    else .error (.msg "Binary LLSD map key had wrong byte instead of expected k")

/-- Loop reading `n` array items, from the `b'['` arm of `parse_value`. -/
def arrayItems (pv : List Nat → RRes (LLSD × List Nat)) :
    Nat → List Nat → RRes (List LLSD × List Nat)
  | 0, l => .ok ([], l)
  | n + 1, l => do
    let (v, l) ← pv l
    let (vs, l) ← arrayItems pv n l
    .ok (v :: vs, l)

/-- The recursive binary value parser `parse_value` from `src/de/binary.rs`,
with fuel bounding the recursion depth (each nested `parse_value` has
consumed at least one byte, so fuel beyond the input length is never
exhausted). -/
def parse_value : Nat → List Nat → RRes (LLSD × List Nat)
  | 0, _ => .error .fuelOut
  | f + 1, l => do
    let (c, l) ← read_u8 l
    if c = 33 then .ok (.undefined, l)
    else if c = 48 then .ok (.boolean false, l)
    else if c = 49 then .ok (.boolean true, l)
    else if c = 115 then do
      let (cps, l) ← readUtf8 l
      .ok (.string cps, l)
    else if c = 108 then do
      let (cps, l) ← readUtf8 l
      .ok (.uri cps, l)
    else if c = 105 then do
      let (bs, l) ← readExact 4 l
      .ok (.integer (twosComp 4 (beToNat bs)), l)
    else if c = 114 then do
      let (bs, l) ← readExact 8 l
      .ok (.real (beToNat bs), l)
    else if c = 117 then do
      let (bs, l) ← readExact 16 l
      .ok (.uuid bs, l)
    else if c = 98 then do
      let (bs, l) ← read_variable l
      .ok (.binary bs, l)
    else if c = 100 then do
      let (bs, l) ← readExact 8 l
      .ok (.date (twosComp 8 (beToNat bs)), l)
    else if c = 123 then do
      let (cnt, l) ← read_u32 l
      let (kv, l) ← mapEntries (parse_value f) cnt [] l
      let (e, l) ← read_u8 l
      if e = 125 then .ok (.map kv, l)
      else .error (.msg "Binary LLSD map did not end properly")
    else if c = 91 then do
      let (cnt, l) ← read_u32 l
      let (vs, l) ← arrayItems (parse_value f) cnt l
      let (e, l) ← read_u8 l
      if e = 93 then .ok (.array vs, l)
      else .error (.msg "Binary LLSD array did not end properly")
    else .error (.msg "Binary LLSD, unexpected type code")

/-- Entry point `binary::from_bytes`: parse one value from the byte slice (no
header) and ignore whatever follows it. -/
def from_bytes (b : List Nat) : RRes LLSD :=
  (parse_value (b.length + 1) b).map (·.1)

end BinaryDe

namespace BinarySer

/-- Rust `String::len` is the UTF-8 byte length; keys and text payloads are
stored as scalar values, so encode first. -/
def utf8Len (s : List Nat) : Nat := (utf8Encode s).length

mutual

/-- The binary value serializer `generate_value` from `src/ser/binary.rs`.
It is translated byte for byte, including the `String` arm, which writes the
Rust byte-string literal `b"writer"` where the type tag belongs. -/
def generate_value : LLSD → List Nat
  | .undefined => [33]
  | .boolean v => if v then [49] else [48]
  | .string v => strCps "writer" ++ natToBe 4 (utf8Len v) ++ utf8Encode v
  | .uri v => [108] ++ natToBe 4 (utf8Len v) ++ utf8Encode v
  | .integer v => [105] ++ intToBe 4 v
  | .real bits => [114] ++ natToBe 8 bits
  | .uuid bs => [117] ++ bs
  | .binary v => [98] ++ natToBe 4 v.length ++ v
  | .date v => [100] ++ intToBe 8 v
  | .map kv => [123] ++ natToBe 4 kv.length ++ genEntries kv ++ [125]
  | .array vs => [91] ++ natToBe 4 vs.length ++ genItems vs ++ [93]

/-- Key-value output of the serializer's `Map` arm: a `k` tag, the
length-prefixed key bytes, then the nested value, per entry. -/
def genEntries : List (List Nat × LLSD) → List Nat
  | [] => []
  | (k, v) :: rest =>
    [107] ++ natToBe 4 (utf8Len k) ++ utf8Encode k ++ generate_value v ++
      genEntries rest

/-- Item output of the serializer's `Array` arm. -/
def genItems : List LLSD → List Nat
  | [] => []
  | v :: rest => generate_value v ++ genItems rest

end

/-- Entry point `binary::to_bytes` (via `to_writer`): the sentinel followed
by the value. -/
def to_bytes (v : LLSD) : List Nat :=
  LLSDBINARYSENTINEL ++ generate_value v

end BinarySer

/-!  Notation codec, translated from `src/de/notation.rs` and
`src/ser/notation.rs`.  The source implements one grammar over a generic
`LLSDStream` trait with two instantiations: a UTF-8 character stream
(`LLSDStreamChars`) and a raw byte stream (`LLSDStreamBytes`).  The element
type is modelled as `Nat` — a Unicode scalar value in character mode, a byte
in byte mode.  The trait's `into_char` is the numeric identity in character
mode and the `u8 → char` widening in byte mode, so both are the identity on
the numeric value and the shared default methods below need no mode
parameter.  Only the two hook methods `parse_binary` and
`parse_sized_string` differ between the modes (`NMode` selects them), exactly
as in the source. -/

/-- The notation sentinel `LLSDNOTATIONSENTINEL` (= `LLSDNOTATIONPREFIX`). -/
def LLSDNOTATIONSENTINEL : List Nat := strCps "<? llsd/notation ?>\n"

namespace NotationDe

/-- Which stream instantiation is parsing: `LLSDStreamChars` or
`LLSDStreamBytes`. -/
inductive NMode where
  | chars : NMode
  | bytes : NMode

/-- The trait's `next_ok`: next element or an end-of-input error. -/
def next_ok : List Nat → RRes (Nat × List Nat)
  | [] => .error (.msg "Unexpected end of input parsing Notation")
  | c :: rest => .ok (c, rest)

/-- The trait's `peek_ok`. -/
def peek_ok : List Nat → RRes Nat
  | [] => .error (.msg "Unexpected end of input parsing Notation")
  | c :: _ => .ok c

/-- The trait's `consume_whitespace`: skip spaces and newlines (only). -/
def consume_whitespace : List Nat → List Nat
  | [] => []
  | c :: rest => if c = 32 || c = 10 then consume_whitespace rest else c :: rest

/-- The trait's `consume_char`: skip whitespace, then require `expected`. -/
def consume_char (expected : Nat) (l : List Nat) : RRes (List Nat) := do
  let (c, l) ← next_ok (consume_whitespace l)
  if c = expected then .ok l
  else .error (.msg "Expected one char, found another")

/-- Character set accumulated by `parse_integer`. -/
def isIntChar (c : Nat) : Bool := isDigit c || c = 43 || c = 45

/-- The trait's `parse_integer`: accumulate digits and signs, then
`s.parse::<i32>()`. -/
def parse_integer (l : List Nat) : RRes (LLSD × List Nat) :=
  let s := l.takeWhile isIntChar
  let rest := l.drop s.length
  match parseI32 s with
  | some v => .ok (.integer v, rest)
  | none => .error (.msg "invalid digit found in string")

/-- Character set accumulated by `parse_real`. -/
def isRealChar (c : Nat) : Bool := isIntChar c || c = 46

/-- The trait's `parse_real`: accumulate digits, signs and dots, then
`s.parse::<f64>()`. -/
def parse_real (l : List Nat) : RRes (LLSD × List Nat) :=
  let s := l.takeWhile isRealChar
  let rest := l.drop s.length
  match parseF64 s with
  | some bits => .ok (.real bits, rest)
  | none => .error (.msg "invalid float literal")

/-- Test for `char::is_alphabetic` restricted to ASCII letters.  (The Rust
predicate is the Unicode `Alphabetic` property; all comparisons made with the
accumulated word below are against ASCII spellings, and no theorem in this
file feeds non-ASCII letters to a boolean literal.) -/
def isAlpha (c : Nat) : Bool := (65 ≤ c && c ≤ 90) || (97 ≤ c && c ≤ 122)

/-- The trait's `parse_boolean`: the first character is already consumed;
accumulate the rest of the alphabetic run and match the eight allowed
spellings. -/
def parse_boolean (first : Nat) (l : List Nat) : RRes (LLSD × List Nat) :=
  let word := first :: l.takeWhile isAlpha
  let rest := l.drop (l.takeWhile isAlpha).length
  if word = strCps "f" || word = strCps "F" || word = strCps "false" ||
     word = strCps "FALSE" then .ok (.boolean false, rest)
  else if word = strCps "t" || word = strCps "T" || word = strCps "true" ||
     word = strCps "TRUE" then .ok (.boolean true, rest)
  else .error (.msg "Parsing Boolean, unrecognized spelling")

/-- The trait's `parse_quoted_string`, entered after the opening quote:
consume whitespace first (as the source does), then accumulate to the closing
`delim`, a backslash taking the next element verbatim. -/
def quotedTail (delim : Nat) : List Nat → RRes (List Nat × List Nat)
  | [] => .error (.msg "String ended with EOF instead of quote.")
  | c :: rest =>
    if c = delim then .ok ([], rest)
    else if c = 92 then
      match rest with
      | [] => .error (.msg "String ended with EOF instead of quote.")
      | e :: rest2 => (quotedTail delim rest2).map (fun (s, r) => (e :: s, r))
    else (quotedTail delim rest).map (fun (s, r) => (c :: s, r))

/-- See `quotedTail`; this is the entry that also does the leading
`consume_whitespace` of the source. -/
def parse_quoted_string (delim : Nat) (l : List Nat) : RRes (List Nat × List Nat) :=
  quotedTail delim (consume_whitespace l)

/-- The trait's `parse_date`: a quoted RFC 3339 string, then `.timestamp()`. -/
def parse_date (l : List Nat) : RRes (LLSD × List Nat) := do
  let (d, l) ← next_ok l
  if d = 34 || d = 39 then do
    let (s, l) ← parse_quoted_string d l
    match rfc3339Parse s with
    | some t => .ok (.date t, l)
    | none => .error (.msg "input contains invalid characters")
  else .error (.msg "Date did not begin with quote")

/-- The trait's `parse_uri`: a quoted string, percent-decoded. -/
def parse_uri (l : List Nat) : RRes (LLSD × List Nat) := do
  let (d, l) ← next_ok l
  if d = 34 || d = 39 then do
    let (s, l) ← parse_quoted_string d l
    match percentDecode s with
    | some u => .ok (.uri u, l)
    | none => .error .utf8
  else .error (.msg "URI did not begin with quote")

/-- The trait's `parse_uuid`: exactly 36 unquoted elements, parsed as a
UUID. -/
def parse_uuid (l : List Nat) : RRes (LLSD × List Nat) :=
  if l.length < 36 then .error (.msg "EOF parsing UUID")
  else
    match uuidParse (l.take 36) with
    | some bs => .ok (.uuid bs, l.drop 36)
    | none => .error (.msg "invalid UUID")

/-- Read `cnt` raw elements (`next_chunk` of `LLSDStreamBytes`).  Rust first
does `Vec::with_capacity(cnt)`, which aborts with a capacity-overflow panic
when `cnt` exceeds `isize::MAX` bytes. -/
def next_chunk (cnt : Nat) (l : List Nat) : RRes (List Nat × List Nat) :=
  if 2 ^ 63 - 1 < cnt then .error (.panic "capacity overflow")
  else if l.length < cnt then .error (.msg "Unexpected end of input parsing Notation")
  else .ok (l.take cnt, l.drop cnt)

/-- `LLSDStreamBytes::parse_number_in_parentheses`: `(`, `parse_integer`,
`)`, then `v as usize` (a wrapping cast: a negative count becomes a huge
length). -/
def parse_number_in_parentheses (l : List Nat) : RRes (Nat × List Nat) := do
  let l ← consume_char 40 l
  let (v, l) ← parse_integer l
  let l ← consume_char 41 l
  match v with
  | .integer n => .ok (((n % (2 ^ 64 : Nat)).toNat, l))
  | _ => .error (.panic "Integer parse did not return an integer.")

/-- `LLSDStreamBytes::parse_binary`: the three sub-forms `b(N)"…"`,
`b16"…"`, `b64"…"` (whitespace inside the quoted payload of the base-16 and
base-64 forms is removed before decoding). -/
def parse_binary_bytes (l : List Nat) : RRes (LLSD × List Nat) := do
  let c ← peek_ok l
  if c = 40 then do
    let (cnt, l) ← parse_number_in_parentheses l
    let l ← consume_char 34 l
    let (s, l) ← next_chunk cnt l
    let l ← consume_char 34 l
    .ok (.binary s, l)
  else if c = 49 then do
    let l ← consume_char 49 l
    let l ← consume_char 54 l
    let l ← consume_char 34 l
    let (s, l) ← parse_quoted_string 34 l
    match hexDecode (s.filter (fun ch => !isUnicodeWs ch)) with
    | some bs => .ok (.binary bs, l)
    | none => .error (.msg "Invalid character in hex")
  else if c = 54 then do
    let l ← consume_char 54 l
    let l ← consume_char 52 l
    let l ← consume_char 34 l
    let (s, l) ← parse_quoted_string 34 l
    match base64Decode (s.filter (fun ch => !isUnicodeWs ch)) with
    | some bs => .ok (.binary bs, l)
    | none => .error (.msg "Invalid base64")
  else .error (.msg "Binary value started with unexpected character")

/-- `LLSDStreamBytes::parse_sized_string`: `s(N)"…"`, the chunk required to
be valid UTF-8. -/
def parse_sized_string_bytes (l : List Nat) : RRes (LLSD × List Nat) := do
  let (cnt, l) ← parse_number_in_parentheses l
  let l ← consume_char 34 l
  let (s, l) ← next_chunk cnt l
  let l ← consume_char 34 l
  match utf8Decode s with
  | some cps => .ok (.string cps, l)
  | none => .error .utf8

/-- Map-entry loop of the trait's `parse_map`, entered after the `{` has been
consumed; `pv` is the recursive value parser.  The `}` arm reproduces the
source exactly: `next_ok` has already consumed the `}`, and the arm then
calls `next` once more before breaking, discarding one element beyond the
closing brace. -/
def parse_map_loop (pv : List Nat → RRes (LLSD × List Nat)) :
    Nat → List (List Nat × LLSD) → List Nat → RRes (LLSD × List Nat)
  | 0, _, _ => .error .fuelOut
  | f + 1, acc, l => do
    let (c, l1) ← next_ok (consume_whitespace l)
    if c = 125 then .ok (.map acc, l1.tail)
    else if c = 39 || c = 34 then do
      let (key, l2) ← parse_quoted_string c l1
      let l3 ← consume_char 58 l2
      let (v, l4) ← pv l3
      let acc := (acc.filter (fun e => e.1 ≠ key)) ++ [(key, v)]
      let l5 := consume_whitespace l4
      let c2 ← peek_ok l5
      parse_map_loop pv f acc (if c2 = 44 then l5.tail else l5)
    else .error (.msg "Map key began with unexpected character instead of quote.")

/-- Item loop of the trait's `parse_array`, entered after the `[`. -/
def parse_array_loop (pv : List Nat → RRes (LLSD × List Nat)) :
    Nat → List LLSD → List Nat → RRes (LLSD × List Nat)
  | 0, _, _ => .error .fuelOut
  | f + 1, acc, l => do
    let l := consume_whitespace l
    let c ← peek_ok l
    if c = 93 then .ok (.array acc, l.tail)
    else do
      let (v, l2) ← pv l
      let acc := acc ++ [v]
      let l3 := consume_whitespace l2
      let c2 ← peek_ok l3
      parse_array_loop pv f acc (if c2 = 44 then l3.tail else l3)

/-- The trait's recursive `parse_value`, fuelled.  The mode is consulted only
by the `b` and `s` arms, whose `LLSDStreamChars` implementations
unconditionally fail ("byte-counted data inside UTF-8 won't work"). -/
def parse_value (mode : NMode) : Nat → List Nat → RRes (LLSD × List Nat)
  | 0, _ => .error .fuelOut
  | f + 1, l => do
    let (c, l) ← next_ok (consume_whitespace l)
    if c = 33 then .ok (.undefined, l)
    else if c = 48 then .ok (.boolean false, l)
    else if c = 49 then .ok (.boolean true, l)
    else if c = 102 || c = 70 || c = 116 || c = 84 then parse_boolean c l
    else if c = 123 then parse_map_loop (parse_value mode f) f [] l
    else if c = 91 then parse_array_loop (parse_value mode f) f [] l
    else if c = 105 then parse_integer l
    else if c = 114 then parse_real l
    else if c = 100 then parse_date l
    else if c = 117 then parse_uuid l
    else if c = 108 then parse_uri l
    else if c = 98 then
      match mode with
      | .chars => .error (.msg "Byte-counted binary data inside UTF-8 won't work.")
      | .bytes => parse_binary_bytes l
    else if c = 115 then
      match mode with
      | .chars => .error (.msg "Byte-counted string data inside UTF-8 won't work.")
      | .bytes => parse_sized_string_bytes l
    else if c = 34 || c = 39 then
      (parse_quoted_string c l).map (fun (s, r) => (.string s, r))
    else .error (.msg "Unexpected character")

/-- Fuel policy for the notation entry points: depth and loop lengths are
both bounded by the element count, and computing the bound on the
whitespace-trimmed input makes the fuel insensitive to leading whitespace. -/
def nFuel (l : List Nat) : Nat := 2 * (consume_whitespace l).length + 4

/-- `notation::from_str` (`LLSDStreamChars::parse`): parse one value from the
scalar values of the string, ignoring anything after it. -/
def from_str (s : List Nat) : RRes LLSD :=
  (parse_value .chars (nFuel s) s).map (·.1)

/-- `notation::from_bytes` (`LLSDStreamBytes::parse`): parse one value from
the raw bytes, ignoring anything after it. -/
def from_bytes (b : List Nat) : RRes LLSD :=
  (parse_value .bytes (nFuel b) b).map (·.1)

end NotationDe

namespace NotationSer

/-- `escape_quotes` from `src/ser/notation.rs`: backslash-escape `"` and
`\`. -/
def escape_quotes (s : List Nat) : List Nat :=
  (s.map (fun c => if c = 34 || c = 92 then [92, c] else [c])).flatten

mutual

/-- The notation serializer `generate_value` from `src/ser/notation.rs`.
Encoding a `Date` outside chrono's representable range panics on the
`unwrap` (the source comments "may panic for times prior to January 1,
1970"). -/
def generate_value : LLSD → RRes (List Nat)
  | .undefined => .ok [33]
  | .boolean v => .ok (if v then [84] else [70])
  | .string v => .ok ([34] ++ escape_quotes v ++ [34])
  | .uri v => .ok ([108, 34] ++ percentEncode v ++ [34])
  | .integer v => .ok (105 :: intFormat v)
  | .real bits => .ok (114 :: f64Format bits)
  | .uuid bs => .ok (117 :: uuidFormat bs)
  | .binary v => .ok (strCps "b64" ++ [34] ++ base64Encode v ++ [34])
  | .date v =>
    if chronoTsInRange v then .ok (100 :: rfc3339Format v)
    else .error (.panic "called Option::unwrap() on a None value")
  | .map kv =>
    (genEntries kv).map (fun parts => [123] ++ parts ++ [125])
  | .array vs =>
    (genItems vs).map (fun parts => [91] ++ parts ++ [93])

/-- Entry output of the serializer's `Map` arm: `'key':value`, with `,` and
a newline before every entry after the first. -/
def genEntries : List (List Nat × LLSD) → RRes (List Nat)
  | [] => .ok []
  | (k, v) :: rest =>
    match generate_value v, genEntries rest with
    | .ok vout, .ok parts =>
      .ok ([39] ++ k ++ [39, 58] ++ vout ++
        (if rest.isEmpty then [] else [44, 10]) ++ parts)
    | .error e, _ => .error e
    | _, .error e => .error e

/-- Item output of the serializer's `Array` arm, comma-newline separated. -/
def genItems : List LLSD → RRes (List Nat)
  | [] => .ok []
  | v :: rest =>
    match generate_value v, genItems rest with
    | .ok vout, .ok parts =>
      .ok (vout ++ (if rest.isEmpty then [] else [44, 10]) ++ parts)
    | .error e, _ => .error e
    | _, .error e => .error e

end

/-- `notation::to_string`: the sentinel followed by the value. -/
def to_string (v : LLSD) : RRes (List Nat) :=
  (generate_value v).map (LLSDNOTATIONSENTINEL ++ ·)

end NotationSer

/-!  XML codec, translated from `src/de/xml.rs` and `src/ser/xml.rs`.  The
source drives a `quick_xml::Reader` configured with `trim_text(true)` and
`expand_empty_elements(true)`.  The reader is modelled as a small event
tokenizer over the scalar values of the document: text events are trimmed
and whitespace-only text produces no event, a self-closing tag produces a
start event with a queued end event, and `<?…?>`, `<!--…-->` and other
`<!…>` constructs produce declaration, comment and auxiliary events that the
value parsers reject (as the source's catch-all `_ =>` arms do) and the
outer `<llsd>` loop ignores.  quick-xml's automatic end-name matching is not
modelled; every consumer below re-checks tag names itself, as the source
does. -/

/-- The XML sentinel `LLSDXMLSENTINEL`. -/
def LLSDXMLSENTINEL : List Nat := strCps "<?xml"

/-- The canonical XML preamble `LLSDXMLPREFIX`. -/
def LLSDXMLPREFIXCPS : List Nat :=
  strCps "<?xml version=\"1.0\" encoding=\"UTF-8\"?>\n<llsd>\n"

namespace XmlDe

/-- One `quick_xml::events::Event`, reduced to what the deserializer
consumes. -/
inductive XEvent where
  | startE (name : List Nat) (attrs : List (List Nat × List Nat)) : XEvent
  | endE (name : List Nat) : XEvent
  | textE (raw : List Nat) : XEvent
  | commentE : XEvent
  | declE : XEvent
  | otherE : XEvent
  | eofE : XEvent

/-- Reader state: remaining input plus the queued end event of an expanded
self-closing tag. -/
structure RState where
  input : List Nat
  pending : Option XEvent

/-- XML entity unescaping (`unescape_and_decode` / `unescaped_value`): the
five standard entities plus `&#NN;` and `&#xNN;`; an unknown or unterminated
entity is an error. -/
def xmlUnescapeF : Nat → List Nat → RRes (List Nat)
  | 0, _ => .error .fuelOut
  | _ + 1, [] => .ok []
  | f + 1, 38 :: rest =>
    let ent := rest.takeWhile (fun c => c ≠ 59)
    if ent.length = rest.length then .error (.msg "unterminated entity")
    else
      let rest2 := rest.drop (ent.length + 1)
      let tailRes := xmlUnescapeF f rest2
      if ent = strCps "lt" then tailRes.map (60 :: ·)
      else if ent = strCps "gt" then tailRes.map (62 :: ·)
      else if ent = strCps "amp" then tailRes.map (38 :: ·)
      else if ent = strCps "apos" then tailRes.map (39 :: ·)
      else if ent = strCps "quot" then tailRes.map (34 :: ·)
      else
        match ent with
        | 35 :: 120 :: ds =>
          if ds ≠ [] && ds.all (fun c => (hexVal c).isSome) then
            tailRes.map (ds.foldl (fun a c => a * 16 + (hexVal c).getD 0) 0 :: ·)
          else .error (.msg "invalid entity")
        | 35 :: ds =>
          if ds ≠ [] && ds.all isDigit then tailRes.map (digitsVal ds :: ·)
          else .error (.msg "invalid entity")
        | _ => .error (.msg "invalid entity")
  | f + 1, c :: rest => (xmlUnescapeF f rest).map (c :: ·)

/-- See `xmlUnescapeF`; each step consumes at least one element, so fuel one
past the length is always sufficient. -/
def xmlUnescape (l : List Nat) : RRes (List Nat) :=
  xmlUnescapeF (l.length + 1) l

/-- Attribute-list parsing (`quick_xml::events::attributes::Attributes`):
zero or more `name="value"` or `name='value'` items. -/
def parseAttrs : Nat → List Nat → Option (List (List Nat × List Nat))
  | 0, _ => none
  | f + 1, l =>
    match trimUnicodeStart l with
    | [] => some []
    | l' =>
      let name := l'.takeWhile (fun c => c ≠ 61 && !isUnicodeWs c)
      let rest := trimUnicodeStart (l'.drop name.length)
      match rest with
      | 61 :: rest2 =>
        match trimUnicodeStart rest2 with
        | 34 :: rest3 =>
          let v := rest3.takeWhile (fun c => c ≠ 34)
          match rest3.drop v.length with
          | 34 :: rest4 => (parseAttrs f rest4).map ((name, v) :: ·)
          | _ => none
        | 39 :: rest3 =>
          let v := rest3.takeWhile (fun c => c ≠ 39)
          match rest3.drop v.length with
          | 39 :: rest4 => (parseAttrs f rest4).map ((name, v) :: ·)
          | _ => none
        | _ => none
      | _ => none

/-- Does `pat` occur at the head of `l`? -/
def startsWith (l pat : List Nat) : Bool := l.take pat.length = pat

/-- Drop elements of `l` up to and including the first occurrence of `pat`;
`none` if `pat` never occurs. -/
def dropThrough (pat : List Nat) : List Nat → Option (List Nat)
  | [] => if pat = [] then some [] else none
  | c :: rest =>
    if startsWith (c :: rest) pat then some ((c :: rest).drop pat.length)
    else dropThrough pat rest

/-- Read one tag event from input beginning with `<`. -/
def readTag (l : List Nat) : RRes (XEvent × RState) :=
  if startsWith l (strCps "<!--") then
    match dropThrough (strCps "-->") (l.drop 4) with
    | some rest => .ok (.commentE, ⟨rest, none⟩)
    | none => .error (.msg "unterminated comment")
  else if startsWith l (strCps "<![CDATA[") then
    match dropThrough (strCps "]]>") (l.drop 9) with
    | some rest => .ok (.otherE, ⟨rest, none⟩)
    | none => .error (.msg "unterminated CDATA")
  else if startsWith l (strCps "<!") then
    match dropThrough [62] (l.drop 2) with
    | some rest => .ok (.otherE, ⟨rest, none⟩)
    | none => .error (.msg "unterminated markup declaration")
  else if startsWith l (strCps "<?") then
    match dropThrough (strCps "?>") (l.drop 2) with
    | some rest => .ok (.declE, ⟨rest, none⟩)
    | none => .error (.msg "unterminated declaration")
  else if startsWith l (strCps "</") then
    let body := (l.drop 2).takeWhile (fun c => c ≠ 62)
    match (l.drop 2).drop body.length with
    | 62 :: rest => .ok (.endE (trimUnicode body), ⟨rest, none⟩)
    | _ => .error (.msg "unterminated end tag")
  else
    let body := (l.drop 1).takeWhile (fun c => c ≠ 62)
    match (l.drop 1).drop body.length with
    | 62 :: rest =>
      let selfClosing := body.getLast? = some 47
      let body := if selfClosing then body.take (body.length - 1) else body
      let name := body.takeWhile (fun c => !isUnicodeWs c)
      match parseAttrs ((body.drop name.length).length + 1) (body.drop name.length) with
      | some attrs =>
        if selfClosing then .ok (.startE name attrs, ⟨rest, some (.endE name)⟩)
        else .ok (.startE name attrs, ⟨rest, none⟩)
      | none => .error (.msg "malformed attributes")
    | _ => .error (.msg "unterminated start tag")

/-- `Reader::read_event` with `trim_text(true)` and
`expand_empty_elements(true)`. -/
def read_event (st : RState) : RRes (XEvent × RState) :=
  match st.pending with
  | some e => .ok (e, ⟨st.input, none⟩)
  | none =>
    match st.input with
    | [] => .ok (.eofE, st)
    | 60 :: rest => readTag (60 :: rest)
    | l =>
      let raw := l.takeWhile (fun c => c ≠ 60)
      let rest := l.drop raw.length
      let trimmed := trimUnicode raw
      if trimmed.isEmpty then
        match rest with
        | [] => .ok (.eofE, ⟨[], none⟩)
        | rest' => readTag rest'
      else .ok (.textE trimmed, ⟨rest, none⟩)

/-- Joined accumulated text: `texts.join(" ")` then `str::trim`. -/
def joinedText (texts : List (List Nat)) : List Nat :=
  trimUnicode ((texts.intersperse [32]).flatten)

/-- `parse_boolean` from `src/de/xml.rs`. -/
def parse_boolean (t : List Nat) : RRes Bool :=
  if t = [48] || t = strCps "0.0" then .ok false
  else if t = [49] || t = strCps "1.0" then .ok true
  else
    match parseRustBool t with
    | some b => .ok b
    | none => .error (.msg "provided string was not true or false")

/-- `get_attr`: find an attribute by name and unescape its value. -/
def get_attr (attrs : List (List Nat × List Nat)) (key : List Nat) :
    RRes (Option (List Nat)) :=
  match attrs.find? (fun a => a.1 = key) with
  | some a => (xmlUnescape a.2).map some
  | none => .ok none

/-- `parse_binary` from `src/de/xml.rs`: base64 by default, or base16 /
base85 by the `encoding` attribute; an unknown encoding is an error. -/
def parse_binary (t : List Nat) (attrs : List (List Nat × List Nat)) :
    RRes (List Nat) := do
  let encOpt ← get_attr attrs (strCps "encoding")
  let enc := encOpt.getD (strCps "base64")
  if enc = strCps "base64" then
    match base64Decode t with
    | some bs => .ok bs
    | none => .error (.msg "Invalid base64")
  else if enc = strCps "base16" then
    match hexDecode t with
    | some bs => .ok bs
    | none => .error (.msg "Invalid character in hex")
  else if enc = strCps "base85" then
    match ascii85Decode t with
    | some bs => .ok bs
    | none => .error (.msg "Base 85 decode error")
  else .error (.msg "Unknown encoding on binary")

/-- The primitive-value dispatch of `parse_primitive_value` once the end tag
has closed: interpret the joined text according to the start tag. -/
def primitiveOfText (starttag t : List Nat) (attrs : List (List Nat × List Nat)) :
    RRes LLSD :=
  if starttag = strCps "undef" then .ok .undefined
  else if starttag = strCps "real" then
    match parseF64 (if asciiLower t = strCps "nan" then strCps "NaN" else t) with
    | some bits => .ok (.real bits)
    | none => .error (.msg "invalid float literal")
  else if starttag = strCps "integer" then
    match parseI32 t with
    | some v => .ok (.integer v)
    | none => .error (.msg "cannot parse integer from empty string")
  else if starttag = strCps "boolean" then (parse_boolean t).map .boolean
  else if starttag = strCps "string" then .ok (.string t)
  else if starttag = strCps "uri" then .ok (.string t)
  else if starttag = strCps "uuid" then
    if t.isEmpty then .ok (.uuid (List.replicate 16 0))
    else
      match uuidParse t with
      | some bs => .ok (.uuid bs)
      | none => .error (.msg "invalid UUID")
  else if starttag = strCps "date" then
    match rfc3339Parse t with
    | some d => .ok (.date d)
    | none => .error (.msg "input contains invalid characters")
  else if starttag = strCps "binary" then (parse_binary t attrs).map .binary
  else .error (.msg "Unexpected primitive data type")

/-- Event loop of `parse_primitive_value`: accumulate unescaped text events
(and skip comments) until the matching end tag. -/
def parse_primitive_value (starttag : List Nat) (attrs : List (List Nat × List Nat)) :
    Nat → List (List Nat) → RState → RRes (LLSD × RState)
  | 0, _, _ => .error .fuelOut
  | f + 1, texts, st => do
    let (ev, st) ← read_event st
    match ev with
    | .textE raw => do
      let t ← xmlUnescape raw
      parse_primitive_value starttag attrs f (texts ++ [t]) st
    | .endE name =>
      if starttag = name then (primitiveOfText starttag (joinedText texts) attrs).map ((·, st))
      else .error (.msg "Unmatched XML tags")
    | .eofE => .error (.msg "Unexpected end of data in primitive value")
    | .commentE => parse_primitive_value starttag attrs f texts st
    | _ => .error (.msg "Unexpected parse event while parsing primitive")

/-- Second phase of `parse_map_entry`: after `</key>`, one start event opens
the entry's value, parsed with `pv`. -/
def mapEntryValue (pv : List Nat → List (List Nat × List Nat) → RState → RRes (LLSD × RState))
    (k : List Nat) (st : RState) : RRes ((List Nat × LLSD) × RState) := do
  let (ev, st) ← read_event st
  match ev with
  | .startE name attrs => (pv name attrs st).map (fun (v, st) => ((k, v), st))
  | _ => .error (.msg "Unexpected parse error while parsing map entry")

/-- Event loop of `parse_map_entry`: accumulate the key text to `</key>`,
then the value. -/
def parse_map_entry (pv : List Nat → List (List Nat × List Nat) → RState → RRes (LLSD × RState)) :
    Nat → List (List Nat) → RState → RRes ((List Nat × LLSD) × RState)
  | 0, _, _ => .error .fuelOut
  | f + 1, texts, st => do
    let (ev, st) ← read_event st
    match ev with
    | .startE _ _ => .error (.msg "Expected key in map")
    | .textE raw => do
      let t ← xmlUnescape raw
      parse_map_entry pv f (texts ++ [t]) st
    | .endE name =>
      if name = strCps "key" then mapEntryValue pv (joinedText texts) st
      else .error (.msg "Unmatched XML tags")
    | .eofE => .error (.msg "Unexpected end of data")
    | .commentE => parse_map_entry pv f texts st
    | _ => .error (.msg "Unexpected parse event while parsing map entry")

/-- Event loop of `parse_map`: `<key>` entries until `</map>`; a duplicate
key overwrites. -/
def parse_map (pv : List Nat → List (List Nat × List Nat) → RState → RRes (LLSD × RState)) :
    Nat → List (List Nat × LLSD) → RState → RRes (LLSD × RState)
  | 0, _, _ => .error .fuelOut
  | f + 1, acc, st => do
    let (ev, st) ← read_event st
    match ev with
    | .startE name _ =>
      if name = strCps "key" then do
        let ((k, v), st) ← parse_map_entry pv f [] st
        parse_map pv f ((acc.filter (fun e => e.1 ≠ k)) ++ [(k, v)]) st
      else .error (.msg "Expected key in map, found other tag")
    | .textE _ => parse_map pv f acc st
    | .endE name =>
      if name = strCps "map" then .ok (.map acc, st)
      else .error (.msg "Unmatched XML tags")
    | .eofE => .error (.msg "Unexpected end of data in map")
    | .commentE => parse_map pv f acc st
    | _ => .error (.msg "Unexpected parse event while parsing map")

/-- Event loop of `parse_array`: child value elements until `</array>`. -/
def parse_array (pv : List Nat → List (List Nat × List Nat) → RState → RRes (LLSD × RState)) :
    Nat → List LLSD → RState → RRes (LLSD × RState)
  | 0, _, _ => .error .fuelOut
  | f + 1, acc, st => do
    let (ev, st) ← read_event st
    match ev with
    | .startE name attrs => do
      let (v, st) ← pv name attrs st
      parse_array pv f (acc ++ [v]) st
    | .textE _ => parse_array pv f acc st
    | .endE name =>
      if name = strCps "array" then .ok (.array acc, st)
      else .error (.msg "Unmatched XML tags")
    | .eofE => .error (.msg "Unexpected end of data")
    | .commentE => parse_array pv f acc st
    | _ => .error (.msg "Unexpected parse event while parsing array")

/-- The recursive `parse_value` of `src/de/xml.rs`: dispatch on the start
tag's name. -/
def parse_value : Nat → List Nat → List (List Nat × List Nat) → RState → RRes (LLSD × RState)
  | 0, _, _, _ => .error .fuelOut
  | f + 1, starttag, attrs, st =>
    if starttag = strCps "map" then parse_map (parse_value f) f [] st
    else if starttag = strCps "array" then parse_array (parse_value f) f [] st
    else if starttag = strCps "undef" || starttag = strCps "real" ||
        starttag = strCps "integer" || starttag = strCps "boolean" ||
        starttag = strCps "string" || starttag = strCps "uri" ||
        starttag = strCps "binary" || starttag = strCps "uuid" ||
        starttag = strCps "date" then
      parse_primitive_value starttag attrs f [] st
    else .error (.msg "Unknown data type")

/-- Inner step of the `from_reader` outer loop at a `<llsd>` start: one start
event opens the single value. -/
def llsdBody (f : Nat) (st : RState) : RRes (LLSD × RState) := do
  let (ev, st) ← read_event st
  match ev with
  | .startE name attrs => parse_value f name attrs st
  | _ => .error (.msg "Expected LLSD data")

/-- Outer loop of `from_reader`: find `<llsd>`, parse its interior, reject a
second block, ignore stray text and end events, stop at end of input. -/
def outerLoop : Nat → Option LLSD → RState → RRes LLSD
  | 0, _, _ => .error .fuelOut
  | f + 1, output, st => do
    let (ev, st) ← read_event st
    match ev with
    | .startE name _ =>
      if name = strCps "llsd" then
        if output.isSome then .error (.msg "More than one llsd block in data")
        else do
          let (v, st) ← llsdBody f st
          outerLoop f (some v) st
      else .error (.msg "Expected llsd tag")
    | .textE _ => outerLoop f output st
    | .endE _ => outerLoop f output st
    | .eofE =>
      match output with
      | some v => .ok v
      | none => .error (.msg "Unexpected end of data, no llsd block.")
    | _ => outerLoop f output st

/-- `xml::from_reader` over the scalar values of a document. -/
def from_reader (cps : List Nat) : RRes LLSD :=
  outerLoop (cps.length + 8) none ⟨cps, none⟩

/-- Modelled from the spec: `xml::from_str` is part of the public decode
surface (re-exported in `src/lib.rs` and called by both dispatcher entry
points), but its definition is not among the sources, which retain only a
commented-out `from_string` that wraps the string in a reader and calls
`from_reader`.  Per the spec's §6 public surface, decoding from a string is
decoding the same document stream, so it is modelled as `from_reader` on the
string's scalar values. -/
def from_str (cps : List Nat) : RRes LLSD :=
  from_reader cps

end XmlDe

namespace XmlSer

/-- `xml_escape` from `src/ser/xml.rs`: the five standard XML entities. -/
def xml_escape (s : List Nat) : List Nat :=
  (s.map (fun c =>
    if c = 60 then strCps "&lt;"
    else if c = 62 then strCps "&gt;"
    else if c = 39 then strCps "&apos;"
    else if c = 38 then strCps "&amp;"
    else if c = 34 then strCps "&quot;"
    else [c])).flatten

/-- The `tag` helper: indentation, `<name>` or `</name>`, newline. -/
def tagLine (name : List Nat) (close : Bool) (indent : Nat) : List Nat :=
  (if 0 < indent then List.replicate indent 32 else []) ++
    [60] ++ (if close then [47] else []) ++ name ++ [62, 10]

/-- The `tag_value` helper: an empty value renders as a self-closing tag. -/
def tag_value (name text : List Nat) (indent : Nat) : List Nat :=
  (if 0 < indent then List.replicate indent 32 else []) ++
    (if text.isEmpty then [60] ++ name ++ strCps " />" ++ [10]
     else [60] ++ name ++ [62] ++ xml_escape text ++ [60, 47] ++ name ++ [62, 10])

/-- The `f64_to_xml` helper: Rust renders NaN as `NaN`; the source maps it to
lowercase `nan`. -/
def f64_to_xml (bits : Nat) : List Nat :=
  let ss := f64Format bits
  if ss = strCps "NaN" then strCps "nan" else ss

mutual

/-- The XML serializer `generate_value` from `src/ser/xml.rs`.  Encoding a
`Date` uses the panicking `chrono::Utc.timestamp`, modelled as a panic
outcome outside chrono's range. -/
def generate_value (spaces indent : Nat) : LLSD → RRes (List Nat)
  | .undefined => .ok (tag_value (strCps "undef") [] indent)
  | .boolean v => .ok (tag_value (strCps "boolean") (strCps (if v then "true" else "false")) indent)
  | .string v => .ok (tag_value (strCps "string") v indent)
  | .uri v => .ok (tag_value (strCps "uri") v indent)
  | .integer v => .ok (tag_value (strCps "integer") (intFormat v) indent)
  | .real bits => .ok (tag_value (strCps "real") (f64_to_xml bits) indent)
  | .uuid bs => .ok (tag_value (strCps "uuid") (uuidFormat bs) indent)
  | .binary v => .ok (tag_value (strCps "binary") (base64Encode v) indent)
  | .date v =>
    if chronoTsInRange v then .ok (tag_value (strCps "date") (rfc3339Format v) indent)
    else .error (.panic "invalid time")
  | .map kv =>
    (genEntries spaces indent kv).map (fun parts =>
      tagLine (strCps "map") false indent ++ parts ++ tagLine (strCps "map") true indent)
  | .array vs =>
    (genItems spaces indent vs).map (fun parts =>
      tagLine (strCps "array") false indent ++ parts ++ tagLine (strCps "array") true indent)

/-- Entry output of the XML serializer's `Map` arm: an indented `<key>`
line, then the nested value one level deeper. -/
def genEntries (spaces indent : Nat) : List (List Nat × LLSD) → RRes (List Nat)
  | [] => .ok []
  | (k, v) :: rest =>
    match generate_value spaces (indent + spaces) v, genEntries spaces indent rest with
    | .ok vout, .ok parts =>
      .ok (tag_value (strCps "key") k (indent + spaces) ++ vout ++ parts)
    | .error e, _ => .error e
    | _, .error e => .error e

/-- Item output of the XML serializer's `Array` arm, one level deeper. -/
def genItems (spaces indent : Nat) : List LLSD → RRes (List Nat)
  | [] => .ok []
  | v :: rest =>
    match generate_value spaces (indent + spaces) v, genItems spaces indent rest with
    | .ok vout, .ok parts => .ok (vout ++ parts)
    | .error e, _ => .error e
    | _, .error e => .error e

end

/-- `xml::to_string` (via `to_writer`): preamble, value (with 4-space
indentation when requested), closing `</llsd>`. -/
def to_string (v : LLSD) (do_indent : Bool) : RRes (List Nat) :=
  (generate_value (if do_indent then 4 else 0) 0 v).map
    (fun body => LLSDXMLPREFIXCPS ++ body ++ strCps "</llsd>")

end XmlSer

/-!  Format dispatcher, translated from `src/de/mod.rs`. -/

namespace AutoDe

/-- The notation sentinel with its trailing newline removed
(`LLSDNOTATIONSENTINEL.trim_end()`), as matched by both dispatcher entry
points. -/
def notationSentinelTrimmed : List Nat := strCps "<? llsd/notation ?>"

/-- `auto_from_bytes` from `src/de/mod.rs`: try the binary sentinel with an
exact byte comparison at offset 0; then, on the ASCII-whitespace-trimmed
input, the newline-less notation sentinel; then convert the trimmed input to
UTF-8 (failure here aborts the call), and try the XML sentinel after a
further Unicode trim; then fall back to binary decoding if the original
input is longer than one byte and starts with `{` or `[`; otherwise fail
with a snippet of at most 60 characters of the lossily decoded input. -/
def auto_from_bytes (msg : List Nat) : RRes LLSD :=
  if LLSDBINARYSENTINEL.length ≤ msg.length ∧
      msg.take LLSDBINARYSENTINEL.length = LLSDBINARYSENTINEL then
    BinaryDe.from_bytes (msg.drop LLSDBINARYSENTINEL.length)
  else
    let t := trim_ascii_start msg
    if notationSentinelTrimmed.length ≤ t.length ∧
        t.take notationSentinelTrimmed.length = notationSentinelTrimmed then
      NotationDe.from_bytes (t.drop notationSentinelTrimmed.length)
    else
      match utf8Decode t with
      | none => .error .utf8
      | some msgstring =>
        if XmlDe.startsWith (trimUnicodeStart msgstring) LLSDXMLSENTINEL then
          XmlDe.from_str msgstring
        else if 1 < msg.length ∧ (msg.head? = some 123 ∨ msg.head? = some 91) then
          BinaryDe.from_bytes msg
        else
          .error (.notRecognized ((utf8Lossy msg).take 60))

/-- `auto_from_str` from `src/de/mod.rs`: trim leading Unicode whitespace,
strip the newline-less notation sentinel if present, else try the XML
sentinel, else fail with a snippet of at most 60 characters. -/
def auto_from_str (msg : List Nat) : RRes LLSD :=
  let t := trimUnicodeStart msg
  if XmlDe.startsWith t notationSentinelTrimmed then
    NotationDe.from_str (t.drop notationSentinelTrimmed.length)
  else if XmlDe.startsWith t LLSDXMLSENTINEL then
    XmlDe.from_str t
  else
    .error (.notRecognized (t.take 60))

end AutoDe

/-!  Theorems about the claims. -/

/-- C9 counterexample: the binary sentinel literal `"<? LLSD/Binary ?>\n"`
does not have 19 bytes — the claim's byte count is wrong for the literal it
names. -/
theorem C9_sentinel_not_19_bytes : ¬ (LLSDBINARYSENTINEL.length = 19) := by
  decide

/-- C9 (amended): the binary sentinel required at offset 0 of a canonical
binary stream (and emitted by the binary encoder) is the fixed ASCII literal
`"<? LLSD/Binary ?>\n"`, which is exactly 18 bytes; the encoder places it at
offset 0, and the dispatcher requires it at offset 0 and then decodes the
remainder with the binary decoder. -/
theorem C9_binary_sentinel_18_bytes (v : LLSD) (rest : List Nat) :
    LLSDBINARYSENTINEL =
      [60, 63, 32, 76, 76, 83, 68, 47, 66, 105, 110, 97, 114, 121, 32, 63, 62, 10] ∧
    LLSDBINARYSENTINEL.length = 18 ∧
    (BinarySer.to_bytes v).take 18 = LLSDBINARYSENTINEL ∧
    AutoDe.auto_from_bytes (LLSDBINARYSENTINEL ++ rest) = BinaryDe.from_bytes rest := by
  refine ⟨by decide, by decide, ?_, ?_⟩
  · show ((LLSDBINARYSENTINEL ++ BinarySer.generate_value v).take 18) = _
    rw [show (18 : Nat) = LLSDBINARYSENTINEL.length from rfl,
      List.take_left]
  · show AutoDe.auto_from_bytes _ = _
    unfold AutoDe.auto_from_bytes
    rw [if_pos, show (LLSDBINARYSENTINEL ++ rest).drop LLSDBINARYSENTINEL.length
      = rest from List.drop_left _ _]
    exact ⟨by simp, List.take_left _ _⟩

/-- C9 witness: the amended sentinel facts at a concrete value and
remainder. -/
theorem C9_binary_sentinel_18_bytes_witness :
    LLSDBINARYSENTINEL =
      [60, 63, 32, 76, 76, 83, 68, 47, 66, 105, 110, 97, 114, 121, 32, 63, 62, 10] ∧
    LLSDBINARYSENTINEL.length = 18 ∧
    (BinarySer.to_bytes .undefined).take 18 = LLSDBINARYSENTINEL ∧
    AutoDe.auto_from_bytes (LLSDBINARYSENTINEL ++ [33]) = BinaryDe.from_bytes [33] :=
  C9_binary_sentinel_18_bytes .undefined [33]

/-- C1: the binary encoder's `String` arm writes the six bytes of the Rust
byte-string literal `b"writer"` where the single type tag `s` belongs, so
decoding the binary encoding of any tree containing a `String` fails with an
unexpected-type-code error instead of returning the tree — contradicting the
round-trip claim and the repository's own `binaryparsetest1` test, which
round-trips a tree containing `String("Hello world")` and asserts
equality. -/
theorem C1_binary_string_encode_bug :
    BinarySer.generate_value (.string [65]) =
      strCps "writer" ++ [0, 0, 0, 1, 65] ∧
    BinaryDe.from_bytes ((BinarySer.to_bytes (.string [65])).drop 18) =
      .error (.msg "Binary LLSD, unexpected type code") :=
  ⟨rfl, rfl⟩

/-- C2: the notation decoder's `parse_map` consumes one element beyond the
closing `}` (its `}` arm calls `next` although `next_ok` has already
consumed the brace), so the encoder output `[{}]` for the tree
`Array[Map{}]` loses its `]` during decoding and the decode fails with an
unexpected-end error instead of returning the tree. -/
theorem C2_notation_nested_map_roundtrip_fails :
    NotationSer.to_string (.array [.map []]) =
      .ok (LLSDNOTATIONSENTINEL ++ [91, 123, 125, 93]) ∧
    NotationDe.from_str [91, 123, 125, 93] =
      .error (.msg "Unexpected end of input parsing Notation") :=
  ⟨rfl, rfl⟩

/-- C6: two public calls that panic instead of returning a failure: in byte
mode the notation production `b(-1)""` turns the negative count into a huge
length by the `as usize` cast and aborts in `Vec::with_capacity` with a
capacity overflow, and encoding a `Date` with seconds `i64::MIN` panics on
the serializer's `unwrap` of `chrono`'s out-of-range result. -/
theorem C6_decode_and_encode_panic :
    NotationDe.from_bytes (strCps "b(-1)\"\"") =
      .error (.panic "capacity overflow") ∧
    NotationSer.to_string (.date (-(2 ^ 63))) =
      .error (.panic "called Option::unwrap() on a None value") :=
  ⟨rfl, rfl⟩

/-- C5: decoding a self-closing `<integer/>` does not return `Integer 0`:
the decoder hands the empty accumulated text straight to `i32` parsing,
which fails, so the call errors; the parallel `<uuid/>` accommodation is
present and returns the nil UUID. -/
theorem C5_xml_empty_integer_errors :
    XmlDe.from_str
      (strCps "<?xml version=\"1.0\" encoding=\"UTF-8\"?>\n<llsd><integer/></llsd>") =
      .error (.msg "cannot parse integer from empty string") ∧
    XmlDe.from_str
      (strCps "<?xml version=\"1.0\" encoding=\"UTF-8\"?>\n<llsd><uuid/></llsd>") =
      .ok (.uuid (List.replicate 16 0)) :=
  ⟨rfl, rfl⟩

/-- Computation rule of `Except` bind on a success. -/
theorem rbind_ok {α β : Type} (a : α) (f : α → RRes β) :
    (Except.ok a >>= f) = f a := rfl

/-- Computation rule of `Except` bind on an error. -/
theorem rbind_err {α β : Type} (e : RErr) (f : α → RRes β) :
    ((Except.error e : RRes α) >>= f) = Except.error e := rfl

namespace NotationDe

/-- Map-loop simulation: if every success of `pv₁` is a success of `pv₂`
with the same result, the same holds of the map loops built over them (all
other steps of the loop are mode-independent). -/
theorem parse_map_loop_sim (pv₁ pv₂ : List Nat → RRes (LLSD × List Nat))
    (hp : ∀ l x, pv₁ l = .ok x → pv₂ l = .ok x) :
    ∀ f acc l x, parse_map_loop pv₁ f acc l = .ok x →
      parse_map_loop pv₂ f acc l = .ok x := by
  intro f
  induction f with
  | zero => intro acc l x h; exact Except.noConfusion h
  | succ g ih =>
    intro acc l x h
    rw [parse_map_loop] at h ⊢
    cases hnx : next_ok (consume_whitespace l) with
    | error e => rw [hnx] at h; exact Except.noConfusion h
    | ok p =>
      obtain ⟨c, l1⟩ := p
      rw [hnx] at h
      simp only [rbind_ok] at h ⊢
      by_cases hc : c = 125
      · simp only [hc, if_pos rfl] at h ⊢; exact h
      · rw [if_neg hc] at h ⊢
        by_cases hq : (c = 39 || c = 34) = true
        · rw [if_pos hq] at h ⊢
          cases hqs : parse_quoted_string c l1 with
          | error e => rw [hqs] at h; exact Except.noConfusion h
          | ok p2 =>
            obtain ⟨key, l2⟩ := p2
            rw [hqs] at h
            simp only [rbind_ok] at h ⊢
            cases hcc : consume_char 58 l2 with
            | error e => rw [hcc] at h; exact Except.noConfusion h
            | ok l3 =>
              rw [hcc] at h
              simp only [rbind_ok] at h ⊢
              cases hpv : pv₁ l3 with
              | error e => rw [hpv] at h; exact Except.noConfusion h
              | ok p3 =>
                obtain ⟨v, l4⟩ := p3
                rw [hpv] at h
                rw [hp l3 (v, l4) hpv]
                simp only [rbind_ok] at h ⊢
                cases hpk : peek_ok (consume_whitespace l4) with
                | error e => rw [hpk] at h; exact Except.noConfusion h
                | ok c2 =>
                  rw [hpk] at h
                  simp only [rbind_ok] at h ⊢
                  exact ih _ _ _ h
        · rw [if_neg hq] at h; exact Except.noConfusion h

/-- Array-loop simulation, as `parse_map_loop_sim`. -/
theorem parse_array_loop_sim (pv₁ pv₂ : List Nat → RRes (LLSD × List Nat))
    (hp : ∀ l x, pv₁ l = .ok x → pv₂ l = .ok x) :
    ∀ f acc l x, parse_array_loop pv₁ f acc l = .ok x →
      parse_array_loop pv₂ f acc l = .ok x := by
  intro f
  induction f with
  | zero => intro acc l x h; exact Except.noConfusion h
  | succ g ih =>
    intro acc l x h
    rw [parse_array_loop] at h ⊢
    cases hpk : peek_ok (consume_whitespace l) with
    | error e => rw [hpk] at h; exact Except.noConfusion h
    | ok c =>
      rw [hpk] at h
      simp only [rbind_ok] at h ⊢
      by_cases hc : c = 93
      · rw [if_pos hc] at h ⊢; exact h
      · rw [if_neg hc] at h ⊢
        cases hpv : pv₁ (consume_whitespace l) with
        | error e => rw [hpv] at h; exact Except.noConfusion h
        | ok p =>
          obtain ⟨v, l2⟩ := p
          rw [hpv] at h
          rw [hp _ _ hpv]
          simp only [rbind_ok] at h ⊢
          cases hpk2 : peek_ok (consume_whitespace l2) with
          | error e => rw [hpk2] at h; exact Except.noConfusion h
          | ok c2 =>
            rw [hpk2] at h
            simp only [rbind_ok] at h ⊢
            exact ih _ _ _ h

/-- Mode simulation for the notation value parser: on the same element list
with the same fuel, every success of the character-mode parser is also a
success of the byte-mode parser with the identical result, because the two
instantiations share every step except the `b` and `s` hooks, and the
character-mode hooks always fail. -/
theorem parse_value_sim :
    ∀ f l x, parse_value .chars f l = .ok x → parse_value .bytes f l = .ok x := by
  intro f
  induction f with
  | zero => intro l x h; exact Except.noConfusion h
  | succ g ih =>
    intro l x h
    rw [parse_value] at h ⊢
    cases hnx : next_ok (consume_whitespace l) with
    | error e => rw [hnx] at h; exact Except.noConfusion h
    | ok p =>
      obtain ⟨c, l1⟩ := p
      rw [hnx] at h
      simp only [rbind_ok] at h ⊢
      by_cases h33 : c = 33
      · rw [if_pos h33] at h ⊢; exact h
      rw [if_neg h33] at h ⊢
      by_cases h48 : c = 48
      · rw [if_pos h48] at h ⊢; exact h
      rw [if_neg h48] at h ⊢
      by_cases h49 : c = 49
      · rw [if_pos h49] at h ⊢; exact h
      rw [if_neg h49] at h ⊢
      by_cases hb : c = 102 || c = 70 || c = 116 || c = 84
      · rw [if_pos hb] at h ⊢; exact h
      rw [if_neg hb] at h ⊢
      by_cases h123 : c = 123
      · rw [if_pos h123] at h ⊢
        exact parse_map_loop_sim _ _ ih g [] l1 x h
      rw [if_neg h123] at h ⊢
      by_cases h91 : c = 91
      · rw [if_pos h91] at h ⊢
        exact parse_array_loop_sim _ _ ih g [] l1 x h
      rw [if_neg h91] at h ⊢
      by_cases h105 : c = 105
      · rw [if_pos h105] at h ⊢; exact h
      rw [if_neg h105] at h ⊢
      by_cases h114 : c = 114
      · rw [if_pos h114] at h ⊢; exact h
      rw [if_neg h114] at h ⊢
      by_cases h100 : c = 100
      · rw [if_pos h100] at h ⊢; exact h
      rw [if_neg h100] at h ⊢
      by_cases h117 : c = 117
      · rw [if_pos h117] at h ⊢; exact h
      rw [if_neg h117] at h ⊢
      by_cases h108 : c = 108
      · rw [if_pos h108] at h ⊢; exact h
      rw [if_neg h108] at h ⊢
      by_cases h98 : c = 98
      · rw [if_pos h98] at h; exact Except.noConfusion h
      rw [if_neg h98] at h ⊢
      by_cases h115 : c = 115
      · rw [if_pos h115] at h; exact Except.noConfusion h
      rw [if_neg h115] at h ⊢
      by_cases hqc : c = 34 || c = 39
      · rw [if_pos hqc] at h ⊢; exact h
      rw [if_neg hqc] at h
      exact Except.noConfusion h

end NotationDe

/-- Encoding an all-ASCII scalar-value list as UTF-8 is the identity. -/
theorem utf8Encode_ascii : ∀ s : List Nat, (∀ c ∈ s, c < 128) → utf8Encode s = s := by
  intro s
  induction s with
  | nil => intro _; rfl
  | cons c rest ih =>
    intro h
    have hc : c < 128 := h c (List.mem_cons_self _ _)
    have hr := ih (fun x hx => h x (List.mem_cons_of_mem _ hx))
    show utf8EncodeChar c ++ (rest.map utf8EncodeChar).flatten = c :: rest
    rw [show utf8EncodeChar c = [c] from by rw [utf8EncodeChar, if_pos hc]]
    rw [show ((rest.map utf8EncodeChar).flatten : List Nat) = utf8Encode rest from rfl, hr]
    rfl

/-- C4 counterexample: the claim's shared grammar subset is wrong on two
sides at once.  On the input `b64"QUJD"` the text-mode decoder fails (its
`parse_binary` hook rejects all three `b` sub-forms, not only the
length-counted one) while the byte-mode decoder succeeds; and on the
non-ASCII quoted string `"é"` both modes succeed but return different trees,
because the byte-mode stream widens each UTF-8 byte to a character
(Latin-1-style) instead of decoding the multi-byte sequence. -/
theorem C4_cross_mode_counterexample :
    NotationDe.from_str (strCps "b64\"QUJD\"") =
      .error (.msg "Byte-counted binary data inside UTF-8 won't work.") ∧
    NotationDe.from_bytes (utf8Encode (strCps "b64\"QUJD\"")) =
      .ok (.binary [65, 66, 67]) ∧
    NotationDe.from_str [34, 233, 34] = .ok (.string [233]) ∧
    NotationDe.from_bytes (utf8Encode [34, 233, 34]) = .ok (.string [195, 169]) ∧
    LLSD.string [233] ≠ LLSD.string [195, 169] :=
  ⟨rfl, rfl, rfl, rfl, by intro hh; injection hh with hh2; simp at hh2⟩

/-- C4 (amended): cross-mode equivalence restricted to ASCII input on which
the text-mode decoder succeeds: for every all-ASCII input accepted by the
text-mode decoder (which excludes every `b` and `s` production, since the
text-mode hooks always fail), the byte-mode decoder run on the UTF-8 bytes
of the same input succeeds with the identical tree. -/
theorem C4_cross_mode_ascii (s : List Nat) (v : LLSD)
    (hA : ∀ c ∈ s, c < 128) (h : NotationDe.from_str s = .ok v) :
    NotationDe.from_bytes (utf8Encode s) = .ok v := by
  rw [utf8Encode_ascii s hA]
  unfold NotationDe.from_bytes
  unfold NotationDe.from_str at h
  cases hp : NotationDe.parse_value .chars (NotationDe.nFuel s) s with
  | error e => rw [hp] at h; exact Except.noConfusion h
  | ok x =>
    rw [hp] at h
    rw [NotationDe.parse_value_sim _ _ _ hp]
    exact h

/-- C4 witness: the amended equivalence at the concrete ASCII input `i3`. -/
theorem C4_cross_mode_ascii_witness :
    (∀ c ∈ strCps "i3", c < 128) ∧
    NotationDe.from_str (strCps "i3") = .ok (.integer 3) ∧
    NotationDe.from_bytes (utf8Encode (strCps "i3")) = .ok (.integer 3) :=
  ⟨by decide, rfl, C4_cross_mode_ascii (strCps "i3") (.integer 3) (by decide) rfl⟩

namespace BinaryDe

/-- Reading one byte is unaffected by bytes appended after the input. -/
theorem read_u8_append (t : List Nat) :
    ∀ l b r, read_u8 l = .ok (b, r) → read_u8 (l ++ t) = .ok (b, r ++ t) := by
  intro l b r h
  cases l with
  | nil => exact Except.noConfusion h
  | cons c rest =>
    simp only [read_u8, Except.ok.injEq, Prod.mk.injEq] at h
    obtain ⟨rfl, rfl⟩ := h
    rfl

/-- Reading an exact count of bytes is unaffected by appended bytes. -/
theorem readExact_append (t : List Nat) :
    ∀ n l bs r, readExact n l = .ok (bs, r) → readExact n (l ++ t) = .ok (bs, r ++ t) := by
  intro n
  induction n with
  | zero =>
    intro l bs r h
    simp only [readExact, Except.ok.injEq, Prod.mk.injEq] at h
    obtain ⟨rfl, rfl⟩ := h
    rfl
  | succ m ih =>
    intro l bs r h
    cases l with
    | nil => exact Except.noConfusion h
    | cons c rest =>
      simp only [readExact] at h ⊢
      cases hin : readExact m rest with
      | error e => rw [hin] at h; exact Except.noConfusion h
      | ok p =>
        obtain ⟨bs', r'⟩ := p
        rw [hin] at h
        simp only [List.append_eq]
        rw [ih rest bs' r' hin]
        simp only [Except.map, Except.ok.injEq, Prod.mk.injEq] at h ⊢
        exact ⟨h.1, h.2 ▸ rfl⟩

/-- Reading a 4-byte length is unaffected by appended bytes. -/
theorem read_u32_append (t : List Nat) :
    ∀ l n r, read_u32 l = .ok (n, r) → read_u32 (l ++ t) = .ok (n, r ++ t) := by
  intro l n r h
  unfold read_u32 at h ⊢
  cases hin : readExact 4 l with
  | error e => rw [hin] at h; exact Except.noConfusion h
  | ok p =>
    obtain ⟨bs, r'⟩ := p
    rw [hin] at h
    rw [readExact_append t 4 l bs r' hin]
    simp only [Except.map, Except.ok.injEq, Prod.mk.injEq] at h ⊢
    exact ⟨h.1, h.2 ▸ rfl⟩

/-- Reading a length-prefixed chunk is unaffected by appended bytes. -/
theorem read_variable_append (t : List Nat) :
    ∀ l bs r, read_variable l = .ok (bs, r) → read_variable (l ++ t) = .ok (bs, r ++ t) := by
  intro l bs r h
  unfold read_variable at h ⊢
  cases hn : read_u32 l with
  | error e => rw [hn] at h; exact Except.noConfusion h
  | ok p =>
    obtain ⟨n, r1⟩ := p
    rw [hn] at h
    rw [read_u32_append t l n r1 hn]
    simp only [rbind_ok] at h ⊢
    exact readExact_append t n r1 bs r h

/-- Reading length-prefixed UTF-8 text is unaffected by appended bytes. -/
theorem readUtf8_append (t : List Nat) :
    ∀ l cps r, readUtf8 l = .ok (cps, r) → readUtf8 (l ++ t) = .ok (cps, r ++ t) := by
  intro l cps r h
  unfold readUtf8 at h ⊢
  cases hv : read_variable l with
  | error e => rw [hv] at h; exact Except.noConfusion h
  | ok p =>
    obtain ⟨bs, r1⟩ := p
    rw [hv] at h
    rw [read_variable_append t l bs r1 hv]
    simp only [rbind_ok] at h ⊢
    cases hd : utf8Decode bs with
    | none => rw [hd] at h; exact Except.noConfusion h
    | some c =>
      rw [hd] at h
      simp only [Except.ok.injEq, Prod.mk.injEq] at h ⊢
      exact ⟨h.1, h.2 ▸ rfl⟩

/-- Map-entry loops preserve insensitivity to appended bytes when the value
parser does. -/
theorem mapEntries_append (pv₁ pv₂ : List Nat → RRes (LLSD × List Nat)) (t : List Nat)
    (hp : ∀ l v r, pv₁ l = .ok (v, r) → pv₂ (l ++ t) = .ok (v, r ++ t)) :
    ∀ n acc l kv r, mapEntries pv₁ n acc l = .ok (kv, r) →
      mapEntries pv₂ n acc (l ++ t) = .ok (kv, r ++ t) := by
  intro n
  induction n with
  | zero =>
    intro acc l kv r h
    simp only [mapEntries, Except.ok.injEq, Prod.mk.injEq] at h
    obtain ⟨rfl, rfl⟩ := h
    rfl
  | succ m ih =>
    intro acc l kv r h
    rw [mapEntries] at h ⊢
    cases h8 : read_u8 l with
    | error e => rw [h8] at h; exact Except.noConfusion h
    | ok p =>
      obtain ⟨kp, l1⟩ := p
      rw [h8] at h
      rw [read_u8_append t l kp l1 h8]
      simp only [rbind_ok] at h ⊢
      by_cases hk : kp = 107
      · rw [if_pos hk] at h ⊢
        cases hu : readUtf8 l1 with
        | error e => rw [hu] at h; exact Except.noConfusion h
        | ok p2 =>
          obtain ⟨key, l2⟩ := p2
          rw [hu] at h
          rw [readUtf8_append t l1 key l2 hu]
          simp only [rbind_ok] at h ⊢
          cases hv : pv₁ l2 with
          | error e => rw [hv] at h; exact Except.noConfusion h
          | ok p3 =>
            obtain ⟨v, l3⟩ := p3
            rw [hv] at h
            rw [hp l2 v l3 hv]
            simp only [rbind_ok] at h ⊢
            exact ih _ _ _ _ h
      · rw [if_neg hk] at h; exact Except.noConfusion h

/-- Array-item loops preserve insensitivity to appended bytes when the value
parser does. -/
theorem arrayItems_append (pv₁ pv₂ : List Nat → RRes (LLSD × List Nat)) (t : List Nat)
    (hp : ∀ l v r, pv₁ l = .ok (v, r) → pv₂ (l ++ t) = .ok (v, r ++ t)) :
    ∀ n l vs r, arrayItems pv₁ n l = .ok (vs, r) →
      arrayItems pv₂ n (l ++ t) = .ok (vs, r ++ t) := by
  intro n
  induction n with
  | zero =>
    intro l vs r h
    simp only [arrayItems, Except.ok.injEq, Prod.mk.injEq] at h
    obtain ⟨rfl, rfl⟩ := h
    rfl
  | succ m ih =>
    intro l vs r h
    rw [arrayItems] at h ⊢
    cases hv : pv₁ l with
    | error e => rw [hv] at h; exact Except.noConfusion h
    | ok p =>
      obtain ⟨v, l1⟩ := p
      rw [hv] at h
      rw [hp l v l1 hv]
      simp only [rbind_ok] at h ⊢
      cases hrest : arrayItems pv₁ m l1 with
      | error e => rw [hrest] at h; exact Except.noConfusion h
      | ok p2 =>
        obtain ⟨vs', r'⟩ := p2
        rw [hrest] at h
        rw [ih _ _ _ hrest]
        simp only [rbind_ok, Except.ok.injEq, Prod.mk.injEq] at h ⊢
        exact ⟨h.1, h.2 ▸ rfl⟩

/-- The binary value parser reads a deterministic prefix of its input: a
success is preserved, with the same value and leftover, when arbitrary bytes
are appended after the input (and any amount of extra fuel is granted). -/
theorem parse_value_append (t : List Nat) (k : Nat) :
    ∀ f l v r, parse_value f l = .ok (v, r) →
      parse_value (f + k) (l ++ t) = .ok (v, r ++ t) := by
  intro f
  induction f with
  | zero => intro l v r h; exact Except.noConfusion h
  | succ g ih =>
    intro l v r h
    have hfk : g + 1 + k = (g + k) + 1 := by omega
    rw [parse_value] at h
    rw [hfk, parse_value]
    cases h8 : read_u8 l with
    | error e => rw [h8] at h; exact Except.noConfusion h
    | ok p =>
      obtain ⟨c, l1⟩ := p
      rw [h8] at h
      rw [read_u8_append t l c l1 h8]
      simp only [rbind_ok] at h ⊢
      by_cases h33 : c = 33
      · rw [if_pos h33] at h ⊢
        simp only [Except.ok.injEq, Prod.mk.injEq] at h ⊢
        exact ⟨h.1, h.2 ▸ rfl⟩
      rw [if_neg h33] at h ⊢
      by_cases h48 : c = 48
      · rw [if_pos h48] at h ⊢
        simp only [Except.ok.injEq, Prod.mk.injEq] at h ⊢
        exact ⟨h.1, h.2 ▸ rfl⟩
      rw [if_neg h48] at h ⊢
      by_cases h49 : c = 49
      · rw [if_pos h49] at h ⊢
        simp only [Except.ok.injEq, Prod.mk.injEq] at h ⊢
        exact ⟨h.1, h.2 ▸ rfl⟩
      rw [if_neg h49] at h ⊢
      by_cases h115 : c = 115
      · rw [if_pos h115] at h ⊢
        cases hu : readUtf8 l1 with
        | error e => rw [hu] at h; exact Except.noConfusion h
        | ok p2 =>
          obtain ⟨cps, l2⟩ := p2
          rw [hu] at h
          rw [readUtf8_append t l1 cps l2 hu]
          simp only [rbind_ok, Except.ok.injEq, Prod.mk.injEq] at h ⊢
          exact ⟨h.1, h.2 ▸ rfl⟩
      rw [if_neg h115] at h ⊢
      by_cases h108 : c = 108
      · rw [if_pos h108] at h ⊢
        cases hu : readUtf8 l1 with
        | error e => rw [hu] at h; exact Except.noConfusion h
        | ok p2 =>
          obtain ⟨cps, l2⟩ := p2
          rw [hu] at h
          rw [readUtf8_append t l1 cps l2 hu]
          simp only [rbind_ok, Except.ok.injEq, Prod.mk.injEq] at h ⊢
          exact ⟨h.1, h.2 ▸ rfl⟩
      rw [if_neg h108] at h ⊢
      by_cases h105 : c = 105
      · rw [if_pos h105] at h ⊢
        cases hx : readExact 4 l1 with
        | error e => rw [hx] at h; exact Except.noConfusion h
        | ok p2 =>
          obtain ⟨bs, l2⟩ := p2
          rw [hx] at h
          rw [readExact_append t 4 l1 bs l2 hx]
          simp only [rbind_ok, Except.ok.injEq, Prod.mk.injEq] at h ⊢
          exact ⟨h.1, h.2 ▸ rfl⟩
      rw [if_neg h105] at h ⊢
      by_cases h114 : c = 114
      · rw [if_pos h114] at h ⊢
        cases hx : readExact 8 l1 with
        | error e => rw [hx] at h; exact Except.noConfusion h
        | ok p2 =>
          obtain ⟨bs, l2⟩ := p2
          rw [hx] at h
          rw [readExact_append t 8 l1 bs l2 hx]
          simp only [rbind_ok, Except.ok.injEq, Prod.mk.injEq] at h ⊢
          exact ⟨h.1, h.2 ▸ rfl⟩
      rw [if_neg h114] at h ⊢
      by_cases h117 : c = 117
      · rw [if_pos h117] at h ⊢
        cases hx : readExact 16 l1 with
        | error e => rw [hx] at h; exact Except.noConfusion h
        | ok p2 =>
          obtain ⟨bs, l2⟩ := p2
          rw [hx] at h
          rw [readExact_append t 16 l1 bs l2 hx]
          simp only [rbind_ok, Except.ok.injEq, Prod.mk.injEq] at h ⊢
          exact ⟨h.1, h.2 ▸ rfl⟩
      rw [if_neg h117] at h ⊢
      by_cases h98 : c = 98
      · rw [if_pos h98] at h ⊢
        cases hx : read_variable l1 with
        | error e => rw [hx] at h; exact Except.noConfusion h
        | ok p2 =>
          obtain ⟨bs, l2⟩ := p2
          rw [hx] at h
          rw [read_variable_append t l1 bs l2 hx]
          simp only [rbind_ok, Except.ok.injEq, Prod.mk.injEq] at h ⊢
          exact ⟨h.1, h.2 ▸ rfl⟩
      rw [if_neg h98] at h ⊢
      by_cases h100 : c = 100
      · rw [if_pos h100] at h ⊢
        cases hx : readExact 8 l1 with
        | error e => rw [hx] at h; exact Except.noConfusion h
        | ok p2 =>
          obtain ⟨bs, l2⟩ := p2
          rw [hx] at h
          rw [readExact_append t 8 l1 bs l2 hx]
          simp only [rbind_ok, Except.ok.injEq, Prod.mk.injEq] at h ⊢
          exact ⟨h.1, h.2 ▸ rfl⟩
      rw [if_neg h100] at h ⊢
      by_cases h123 : c = 123
      · rw [if_pos h123] at h ⊢
        cases h32 : read_u32 l1 with
        | error e => rw [h32] at h; exact Except.noConfusion h
        | ok p2 =>
          obtain ⟨cnt, l2⟩ := p2
          rw [h32] at h
          rw [read_u32_append t l1 cnt l2 h32]
          simp only [rbind_ok] at h ⊢
          cases hme : mapEntries (parse_value g) cnt [] l2 with
          | error e => rw [hme] at h; exact Except.noConfusion h
          | ok p3 =>
            obtain ⟨kv, l3⟩ := p3
            rw [hme] at h
            rw [mapEntries_append (parse_value g) (parse_value (g + k)) t
              (fun l' v' r' hh => ih l' v' r' hh) cnt [] l2 kv l3 hme]
            simp only [rbind_ok] at h ⊢
            cases h8e : read_u8 l3 with
            | error e => rw [h8e] at h; exact Except.noConfusion h
            | ok p4 =>
              obtain ⟨e, l4⟩ := p4
              rw [h8e] at h
              rw [read_u8_append t l3 e l4 h8e]
              simp only [rbind_ok] at h ⊢
              by_cases he : e = 125
              · rw [if_pos he] at h ⊢
                simp only [Except.ok.injEq, Prod.mk.injEq] at h ⊢
                exact ⟨h.1, h.2 ▸ rfl⟩
              · rw [if_neg he] at h; exact Except.noConfusion h
      rw [if_neg h123] at h ⊢
      by_cases h91 : c = 91
      · rw [if_pos h91] at h ⊢
        cases h32 : read_u32 l1 with
        | error e => rw [h32] at h; exact Except.noConfusion h
        | ok p2 =>
          obtain ⟨cnt, l2⟩ := p2
          rw [h32] at h
          rw [read_u32_append t l1 cnt l2 h32]
          simp only [rbind_ok] at h ⊢
          cases hai : arrayItems (parse_value g) cnt l2 with
          | error e => rw [hai] at h; exact Except.noConfusion h
          | ok p3 =>
            obtain ⟨vs, l3⟩ := p3
            rw [hai] at h
            rw [arrayItems_append (parse_value g) (parse_value (g + k)) t
              (fun l' v' r' hh => ih l' v' r' hh) cnt l2 vs l3 hai]
            simp only [rbind_ok] at h ⊢
            cases h8e : read_u8 l3 with
            | error e => rw [h8e] at h; exact Except.noConfusion h
            | ok p4 =>
              obtain ⟨e, l4⟩ := p4
              rw [h8e] at h
              rw [read_u8_append t l3 e l4 h8e]
              simp only [rbind_ok] at h ⊢
              by_cases he : e = 93
              · rw [if_pos he] at h ⊢
                simp only [Except.ok.injEq, Prod.mk.injEq] at h ⊢
                exact ⟨h.1, h.2 ▸ rfl⟩
              · rw [if_neg he] at h; exact Except.noConfusion h
      rw [if_neg h91] at h
      exact Except.noConfusion h

end BinaryDe

/-- C10 counterexample: for the notation decoders, trailing input after a
complete value can be an error: `t` alone is a complete Boolean value, but
`tx` — the same complete value followed by a trailing character — fails,
because the trailing alphabetic character is absorbed into the boolean word,
which then matches no allowed spelling. -/
theorem C10_notation_trailing_char_error :
    NotationDe.from_str (strCps "t") = .ok (.boolean true) ∧
    NotationDe.from_str (strCps "tx") =
      .error (.msg "Parsing Boolean, unrecognized spelling") :=
  ⟨rfl, rfl⟩

/-- C10 (amended): the sentinel-less decode entry points stop after one
complete top-level value and never require the input to be exhausted.  For
the binary decoder the claim holds as stated: appending arbitrary bytes
after a fully-consumed value leaves the decoded value unchanged.  For the
two notation decoders, whatever input the one-value parse leaves over is
ignored (never an error); but a trailing character that extends the final
token can change or invalidate the parse (see the counterexample). -/
theorem C10_trailing_input_tolerance :
    (∀ p t v, BinaryDe.parse_value (p.length + 1) p = .ok (v, []) →
      BinaryDe.from_bytes (p ++ t) = .ok v) ∧
    (∀ l v r, NotationDe.parse_value .chars (NotationDe.nFuel l) l = .ok (v, r) →
      NotationDe.from_str l = .ok v) ∧
    (∀ l v r, NotationDe.parse_value .bytes (NotationDe.nFuel l) l = .ok (v, r) →
      NotationDe.from_bytes l = .ok v) := by
  refine ⟨?_, ?_, ?_⟩
  · intro p t v h
    unfold BinaryDe.from_bytes
    have hlen : (p ++ t).length + 1 = (p.length + 1) + t.length := by
      simp [List.length_append]; omega
    rw [hlen]
    rw [BinaryDe.parse_value_append t t.length (p.length + 1) p v [] h]
    rfl
  · intro l v r h
    unfold NotationDe.from_str
    rw [h]
    rfl
  · intro l v r h
    unfold NotationDe.from_bytes
    rw [h]
    rfl

/-- C10 witness: the amended tolerance at concrete inputs — a binary
Undefined value followed by a junk byte, and a notation integer followed by
a space and a junk character, in both notation modes. -/
theorem C10_trailing_input_tolerance_witness :
    BinaryDe.parse_value 2 [33] = .ok (.undefined, []) ∧
    BinaryDe.from_bytes ([33] ++ [99]) = .ok .undefined ∧
    NotationDe.parse_value .chars (NotationDe.nFuel (strCps "i3 x")) (strCps "i3 x") =
      .ok (.integer 3, strCps " x") ∧
    NotationDe.from_str (strCps "i3 x") = .ok (.integer 3) ∧
    NotationDe.parse_value .bytes (NotationDe.nFuel (strCps "i3 x")) (strCps "i3 x") =
      .ok (.integer 3, strCps " x") ∧
    NotationDe.from_bytes (strCps "i3 x") = .ok (.integer 3) :=
  ⟨rfl, C10_trailing_input_tolerance.1 [33] [99] .undefined rfl, rfl,
    C10_trailing_input_tolerance.2.1 _ _ _ rfl, rfl,
    C10_trailing_input_tolerance.2.2 _ _ _ rfl⟩

/-- C7 counterexample: two sentinel-less inputs that start with `[` or `{`
but are not decoded by the binary decoder.  The one-byte input `[` fails the
dispatcher's `msg.len() > 1` guard and gets the not-recognized error, and
the two-byte input `{`,`0xFF` is rejected by the UTF-8 conversion the
dispatcher performs for its XML check before it ever reaches the binary
fallback; in both cases the binary decoder itself would have returned its
own distinct end-of-input error. -/
theorem C7_dispatcher_fallback_counterexample :
    AutoDe.auto_from_bytes [91] = .error (.notRecognized [91]) ∧
    BinaryDe.from_bytes [91] = .error (.msg "failed to fill whole buffer") ∧
    AutoDe.auto_from_bytes [123, 255] = .error .utf8 ∧
    BinaryDe.from_bytes [123, 255] = .error (.msg "failed to fill whole buffer") ∧
    RErr.notRecognized [91] ≠ RErr.msg "failed to fill whole buffer" ∧
    RErr.utf8 ≠ RErr.msg "failed to fill whole buffer" :=
  ⟨rfl, rfl, rfl, rfl, by decide, by decide⟩

/-- C7 (amended): the dispatcher's fallback and rejection behaviour for
input carrying none of the three sentinels.  If the (whitespace-trimmed)
input survives the UTF-8 conversion done for the XML check and does not
start with the XML sentinel, then: an input of length at least two whose
first byte is `{` or `[` is decoded by the binary decoder, and any other
such input fails with the not-recognized error whose snippet is at most 60
characters of the input; input that fails the UTF-8 conversion fails with
the UTF-8 error instead, whatever its first byte. -/
theorem C7_dispatcher_fallback (msg : List Nat)
    (hbin : ¬ (LLSDBINARYSENTINEL.length ≤ msg.length ∧
      msg.take LLSDBINARYSENTINEL.length = LLSDBINARYSENTINEL))
    (hnot : ¬ (AutoDe.notationSentinelTrimmed.length ≤ (trim_ascii_start msg).length ∧
      (trim_ascii_start msg).take AutoDe.notationSentinelTrimmed.length =
        AutoDe.notationSentinelTrimmed)) :
    (∀ cps, utf8Decode (trim_ascii_start msg) = some cps →
      ¬ XmlDe.startsWith (trimUnicodeStart cps) LLSDXMLSENTINEL = true →
      ((1 < msg.length ∧ (msg.head? = some 123 ∨ msg.head? = some 91) →
        AutoDe.auto_from_bytes msg = BinaryDe.from_bytes msg) ∧
       (¬ (1 < msg.length ∧ (msg.head? = some 123 ∨ msg.head? = some 91)) →
        AutoDe.auto_from_bytes msg =
          .error (.notRecognized ((utf8Lossy msg).take 60)) ∧
        ((utf8Lossy msg).take 60).length ≤ 60))) ∧
    (utf8Decode (trim_ascii_start msg) = none →
      AutoDe.auto_from_bytes msg = .error .utf8) := by
  constructor
  · intro cps hdec hxml
    constructor
    · intro hfb
      unfold AutoDe.auto_from_bytes
      rw [if_neg hbin, if_neg hnot, hdec]
      simp only []
      rw [if_neg hxml, if_pos hfb]
    · intro hnfb
      refine ⟨?_, List.length_take_le 60 _⟩
      unfold AutoDe.auto_from_bytes
      rw [if_neg hbin, if_neg hnot, hdec]
      simp only []
      rw [if_neg hxml, if_neg hnfb]
  · intro hdec
    unfold AutoDe.auto_from_bytes
    rw [if_neg hbin, if_neg hnot, hdec]

/-- C7 witness: the amended dispatcher behaviour at a sentinel-less binary
empty map and at plain text. -/
theorem C7_dispatcher_fallback_witness :
    AutoDe.auto_from_bytes [123, 0, 0, 0, 0, 125] =
      BinaryDe.from_bytes [123, 0, 0, 0, 0, 125] ∧
    AutoDe.auto_from_bytes (strCps "hello") =
      .error (.notRecognized ((utf8Lossy (strCps "hello")).take 60)) ∧
    ((utf8Lossy (strCps "hello")).take 60).length ≤ 60 := by
  refine ⟨?_, ?_, ?_⟩
  · exact ((C7_dispatcher_fallback [123, 0, 0, 0, 0, 125] (by decide) (by decide)).1
      [123, 0, 0, 0, 0, 125] (by decide) (by decide)).1 (by decide)
  · exact (((C7_dispatcher_fallback (strCps "hello") (by decide) (by decide)).1
      (strCps "hello") (by decide) (by decide)).2 (by decide)).1
  · exact (((C7_dispatcher_fallback (strCps "hello") (by decide) (by decide)).1
      (strCps "hello") (by decide) (by decide)).2 (by decide)).2

namespace NotationDe

/-- A leading newline is whitespace to the notation parser. -/
theorem consume_whitespace_cons10 (l : List Nat) :
    consume_whitespace (10 :: l) = consume_whitespace l := by
  rw [consume_whitespace]
  simp

/-- The notation value parser only sees its input through the leading
whitespace skip, so inputs with the same trimmed form parse identically at
the same fuel. -/
theorem parse_value_congr_ws (mode : NMode) (f : Nat) (l₁ l₂ : List Nat)
    (h : consume_whitespace l₁ = consume_whitespace l₂) :
    parse_value mode f l₁ = parse_value mode f l₂ := by
  cases f with
  | zero => rfl
  | succ g => rw [parse_value, parse_value, h]

/-- The fuel policy ignores leading whitespace. -/
theorem nFuel_cons10 (l : List Nat) : nFuel (10 :: l) = nFuel l := by
  unfold nFuel
  rw [consume_whitespace_cons10]

/-- A leading newline does not change a byte-mode notation decode. -/
theorem from_bytes_newline (l : List Nat) : from_bytes (10 :: l) = from_bytes l := by
  unfold from_bytes
  rw [nFuel_cons10, parse_value_congr_ws .bytes _ _ l (consume_whitespace_cons10 l)]

/-- A leading newline does not change a text-mode notation decode. -/
theorem from_str_newline (l : List Nat) : from_str (10 :: l) = from_str l := by
  unfold from_str
  rw [nFuel_cons10, parse_value_congr_ws .chars _ _ l (consume_whitespace_cons10 l)]

end NotationDe

/-- Dropping leading ASCII whitespace removes an all-whitespace block. -/
theorem trim_ascii_append (ws l : List Nat) (h : ∀ b ∈ ws, isAsciiWs b) :
    trim_ascii_start (ws ++ l) = trim_ascii_start l := by
  induction ws with
  | nil => rfl
  | cons b ws' ih =>
    rw [List.cons_append, trim_ascii_start, if_pos (h b (List.mem_cons_self _ _))]
    exact ih (fun x hx => h x (List.mem_cons_of_mem _ hx))

/-- Cons form of `trim_ascii_append`, matching goals in which the append has
already been pushed inside the cons. -/
theorem trim_ascii_cons_append (b : Nat) (ws' l : List Nat)
    (h : ∀ x ∈ b :: ws', isAsciiWs x) :
    trim_ascii_start (b :: (ws' ++ l)) = trim_ascii_start l := by
  have h2 := trim_ascii_append (b :: ws') l h
  rw [List.cons_append] at h2
  exact h2

/-- UTF-8 decoding peels one ASCII byte at a time. -/
theorem utf8Decode_cons_ascii (a : Nat) (l : List Nat) (ha : a < 128) :
    utf8Decode (a :: l) = (utf8Decode l).map (a :: ·) := by
  unfold utf8Decode
  rw [show (a :: l).length + 1 = l.length + 1 + 1 from by simp]
  rw [utf8DecodeF, if_pos ha]

/-- The binary-sentinel check fails on input that starts with the notation
sentinel (the two literals differ at offset 3, `l` versus `L`). -/
theorem bin_check_fails_nsent (rest : List Nat) :
    ¬ (LLSDBINARYSENTINEL.length ≤ (AutoDe.notationSentinelTrimmed ++ rest).length ∧
       (AutoDe.notationSentinelTrimmed ++ rest).take LLSDBINARYSENTINEL.length =
         LLSDBINARYSENTINEL) := by
  intro hc
  have h3 : (some 108 : Option Nat) = some 76 := congrArg (fun l => l.get? 3) hc.2
  exact absurd (Option.some.inj h3) (by decide)

/-- The binary-sentinel check fails on input whose first byte is ASCII
whitespace. -/
theorem bin_check_fails_ws (b : Nat) (l : List Nat) (hb : isAsciiWs b) :
    ¬ (LLSDBINARYSENTINEL.length ≤ (b :: l).length ∧
       (b :: l).take LLSDBINARYSENTINEL.length = LLSDBINARYSENTINEL) := by
  intro hc
  have h0 : (some b : Option Nat) = some 60 := congrArg List.head? hc.2
  rw [Option.some.inj h0] at hb
  exact absurd hb (by decide)

/-- The binary-sentinel check fails on input that starts with the XML
sentinel (offset 2 differs, `x` versus a space). -/
theorem bin_check_fails_xml (rest : List Nat) :
    ¬ (LLSDBINARYSENTINEL.length ≤ (LLSDXMLSENTINEL ++ rest).length ∧
       (LLSDXMLSENTINEL ++ rest).take LLSDBINARYSENTINEL.length = LLSDBINARYSENTINEL) := by
  intro hc
  have h2 : (some 120 : Option Nat) = some 32 := congrArg (fun l => l.get? 2) hc.2
  exact absurd (Option.some.inj h2) (by decide)

/-- The notation-sentinel check fails on input that starts with the XML
sentinel (offset 2 differs). -/
theorem not_check_fails_xml (rest : List Nat) :
    ¬ (AutoDe.notationSentinelTrimmed.length ≤ (LLSDXMLSENTINEL ++ rest).length ∧
       (LLSDXMLSENTINEL ++ rest).take AutoDe.notationSentinelTrimmed.length =
         AutoDe.notationSentinelTrimmed) := by
  intro hc
  have h2 : (some 120 : Option Nat) = some 32 := congrArg (fun l => l.get? 2) hc.2
  exact absurd (Option.some.inj h2) (by decide)

/-- The notation-sentinel check fails after the binary sentinel (offset 3
differs, `L` versus `l`). -/
theorem not_check_fails_binary (rest : List Nat) :
    ¬ (AutoDe.notationSentinelTrimmed.length ≤ (LLSDBINARYSENTINEL ++ rest).length ∧
       (LLSDBINARYSENTINEL ++ rest).take AutoDe.notationSentinelTrimmed.length =
         AutoDe.notationSentinelTrimmed) := by
  intro hc
  have h3 : (some 76 : Option Nat) = some 108 := congrArg (fun l => l.get? 3) hc.2
  exact absurd (Option.some.inj h3) (by decide)

/-- The dispatcher routes a notation-sentineled byte input to the notation
byte decoder on the remainder. -/
theorem auto_notation_sentinel (rest : List Nat) :
    AutoDe.auto_from_bytes (AutoDe.notationSentinelTrimmed ++ rest) =
      NotationDe.from_bytes rest := by
  unfold AutoDe.auto_from_bytes
  rw [if_neg (bin_check_fails_nsent rest)]
  rw [show trim_ascii_start (AutoDe.notationSentinelTrimmed ++ rest) =
    AutoDe.notationSentinelTrimmed ++ rest from rfl]
  rw [if_pos ⟨by rw [List.length_append]; exact Nat.le_add_right _ _, List.take_left _ _⟩]
  rw [List.drop_left]

/-- C8: dispatcher sentinel and whitespace tolerance.  (i) Notation input
decodes identically with or without the trailing newline after its sentinel
(both the bytes and the string entry points); (ii) leading ASCII whitespace
before the notation sentinel does not change the result; (iii) leading
ASCII whitespace before the XML sentinel does not change the result;
(iv) leading whitespace before the binary sentinel is never tolerated: the
sentinel match is an exact comparison at offset 0, and a whitespace-preceded
binary-sentineled input always fails. -/
theorem C8_dispatcher_whitespace_tolerance :
    (∀ rest, AutoDe.auto_from_bytes (AutoDe.notationSentinelTrimmed ++ rest) =
      AutoDe.auto_from_bytes (AutoDe.notationSentinelTrimmed ++ ([10] ++ rest))) ∧
    (∀ ws rest, (∀ b ∈ ws, isAsciiWs b) →
      AutoDe.auto_from_bytes (ws ++ (AutoDe.notationSentinelTrimmed ++ rest)) =
        AutoDe.auto_from_bytes (AutoDe.notationSentinelTrimmed ++ rest)) ∧
    (∀ ws rest, (∀ b ∈ ws, isAsciiWs b) →
      AutoDe.auto_from_bytes (ws ++ (LLSDXMLSENTINEL ++ rest)) =
        AutoDe.auto_from_bytes (LLSDXMLSENTINEL ++ rest)) ∧
    (∀ ws rest, (∀ b ∈ ws, isAsciiWs b) → ws ≠ [] →
      ∃ e, AutoDe.auto_from_bytes (ws ++ (LLSDBINARYSENTINEL ++ rest)) = .error e) ∧
    (∀ rest, AutoDe.auto_from_str (AutoDe.notationSentinelTrimmed ++ rest) =
      AutoDe.auto_from_str (AutoDe.notationSentinelTrimmed ++ ([10] ++ rest))) := by
  refine ⟨?_, ?_, ?_, ?_, ?_⟩
  · intro rest
    rw [auto_notation_sentinel rest, auto_notation_sentinel ([10] ++ rest)]
    exact (NotationDe.from_bytes_newline rest).symm
  · intro ws rest hws
    cases ws with
    | nil => rw [List.nil_append]
    | cons b ws' =>
      rw [auto_notation_sentinel rest]
      unfold AutoDe.auto_from_bytes
      simp only [List.cons_append]
      rw [if_neg (bin_check_fails_ws b _ (hws b (List.mem_cons_self _ _)))]
      rw [trim_ascii_cons_append b ws' (AutoDe.notationSentinelTrimmed ++ rest) hws]
      rw [show trim_ascii_start (AutoDe.notationSentinelTrimmed ++ rest) =
        AutoDe.notationSentinelTrimmed ++ rest from rfl]
      rw [if_pos ⟨by rw [List.length_append]; exact Nat.le_add_right _ _,
        List.take_left _ _⟩]
      rw [List.drop_left]
  · intro ws rest hws
    cases ws with
    | nil => rw [List.nil_append]
    | cons b ws' =>
      unfold AutoDe.auto_from_bytes
      simp only [List.cons_append]
      rw [if_neg (bin_check_fails_ws b _ (hws b (List.mem_cons_self _ _)))]
      rw [if_neg (bin_check_fails_xml rest)]
      rw [trim_ascii_cons_append b ws' (LLSDXMLSENTINEL ++ rest) hws]
      rw [show trim_ascii_start (LLSDXMLSENTINEL ++ rest) = LLSDXMLSENTINEL ++ rest from rfl]
      rw [if_neg (not_check_fails_xml rest)]
      rw [if_neg (not_check_fails_xml rest)]
      cases hu : utf8Decode (LLSDXMLSENTINEL ++ rest) with
      | none => rfl
      | some cps =>
        have hu' : utf8Decode (60 :: 63 :: 120 :: 109 :: 108 :: rest) = some cps := hu
        rw [utf8Decode_cons_ascii 60 _ (by decide),
          utf8Decode_cons_ascii 63 _ (by decide),
          utf8Decode_cons_ascii 120 _ (by decide),
          utf8Decode_cons_ascii 109 _ (by decide),
          utf8Decode_cons_ascii 108 _ (by decide)] at hu'
        cases ht : utf8Decode rest with
        | none => rw [ht] at hu'; exact absurd hu' (by simp)
        | some tcps =>
          rw [ht] at hu'
          simp only [Option.map_some', Option.some.injEq] at hu'
          subst hu'
          rfl
  · intro ws rest hws hne
    cases ws with
    | nil => exact absurd rfl hne
    | cons b ws' =>
      have hb : isAsciiWs b := hws b (List.mem_cons_self _ _)
      unfold AutoDe.auto_from_bytes
      simp only [List.cons_append]
      rw [if_neg (bin_check_fails_ws b _ hb)]
      rw [trim_ascii_cons_append b ws' (LLSDBINARYSENTINEL ++ rest) hws]
      rw [show trim_ascii_start (LLSDBINARYSENTINEL ++ rest) = LLSDBINARYSENTINEL ++ rest from rfl]
      rw [if_neg (not_check_fails_binary rest)]
      cases hu : utf8Decode (LLSDBINARYSENTINEL ++ rest) with
      | none => exact ⟨.utf8, rfl⟩
      | some cps =>
        have hu' : utf8Decode (60 :: 63 :: 32 ::
            (List.drop 3 LLSDBINARYSENTINEL ++ rest)) = some cps := hu
        rw [utf8Decode_cons_ascii 60 _ (by decide),
          utf8Decode_cons_ascii 63 _ (by decide),
          utf8Decode_cons_ascii 32 _ (by decide)] at hu'
        cases ht : utf8Decode (List.drop 3 LLSDBINARYSENTINEL ++ rest) with
        | none => rw [ht] at hu'; exact absurd hu' (by simp)
        | some tcps =>
          rw [ht] at hu'
          simp only [Option.map_some', Option.some.injEq] at hu'
          subst hu'
          show ∃ e, (if XmlDe.startsWith (trimUnicodeStart (60 :: 63 :: 32 :: tcps))
                LLSDXMLSENTINEL = true then
              XmlDe.from_str (60 :: 63 :: 32 :: tcps)
            else if 1 < (b :: (ws' ++ (LLSDBINARYSENTINEL ++ rest))).length ∧
                ((b :: (ws' ++ (LLSDBINARYSENTINEL ++ rest))).head? = some 123 ∨
                 (b :: (ws' ++ (LLSDBINARYSENTINEL ++ rest))).head? = some 91) then
              BinaryDe.from_bytes (b :: (ws' ++ (LLSDBINARYSENTINEL ++ rest)))
            else Except.error (RErr.notRecognized
              (List.take 60 (utf8Lossy (b :: (ws' ++ (LLSDBINARYSENTINEL ++ rest))))))) =
            Except.error e
          rw [if_neg (show ¬ (XmlDe.startsWith (trimUnicodeStart (60 :: 63 :: 32 :: tcps))
              LLSDXMLSENTINEL = true) from by
            rw [show XmlDe.startsWith (trimUnicodeStart (60 :: 63 :: 32 :: tcps))
              LLSDXMLSENTINEL = false from rfl]
            exact Bool.false_ne_true)]
          rw [if_neg (show ¬ (1 < (b :: (ws' ++ (LLSDBINARYSENTINEL ++ rest))).length ∧
              ((b :: (ws' ++ (LLSDBINARYSENTINEL ++ rest))).head? = some 123 ∨
               (b :: (ws' ++ (LLSDBINARYSENTINEL ++ rest))).head? = some 91)) from by
            intro hc
            rcases hc.2 with hh | hh
            · rw [Option.some.inj hh] at hb
              exact absurd hb (by decide)
            · rw [Option.some.inj hh] at hb
              exact absurd hb (by decide))]
          exact ⟨_, rfl⟩
  · intro rest
    unfold AutoDe.auto_from_str
    rw [show trimUnicodeStart (AutoDe.notationSentinelTrimmed ++ rest) =
      AutoDe.notationSentinelTrimmed ++ rest from rfl]
    rw [show trimUnicodeStart (AutoDe.notationSentinelTrimmed ++ ([10] ++ rest)) =
      AutoDe.notationSentinelTrimmed ++ ([10] ++ rest) from rfl]
    rw [if_pos (show XmlDe.startsWith (AutoDe.notationSentinelTrimmed ++ rest)
        AutoDe.notationSentinelTrimmed = true from by
      simp [XmlDe.startsWith, List.take_left])]
    rw [if_pos (show XmlDe.startsWith (AutoDe.notationSentinelTrimmed ++ ([10] ++ rest))
        AutoDe.notationSentinelTrimmed = true from by
      simp [XmlDe.startsWith, List.take_left])]
    rw [List.drop_left, List.drop_left]
    exact (NotationDe.from_str_newline rest).symm

/-- C8 witness: the tolerance facts at concrete inputs — `i42` behind the
notation sentinel with and without the trailing newline (bytes and string
entry points), a space before the notation and XML sentinels, and a space
before the binary sentinel (rejected). -/
theorem C8_dispatcher_whitespace_tolerance_witness :
    AutoDe.auto_from_bytes (AutoDe.notationSentinelTrimmed ++ strCps "i42") =
      AutoDe.auto_from_bytes (AutoDe.notationSentinelTrimmed ++ ([10] ++ strCps "i42")) ∧
    AutoDe.auto_from_bytes ([32] ++ (AutoDe.notationSentinelTrimmed ++ strCps "i42")) =
      AutoDe.auto_from_bytes (AutoDe.notationSentinelTrimmed ++ strCps "i42") ∧
    AutoDe.auto_from_bytes ([32] ++ (LLSDXMLSENTINEL ++ strCps " version=\"1.0\"?><llsd><integer>7</integer></llsd>")) =
      AutoDe.auto_from_bytes (LLSDXMLSENTINEL ++ strCps " version=\"1.0\"?><llsd><integer>7</integer></llsd>") ∧
    (∃ e, AutoDe.auto_from_bytes ([32] ++ (LLSDBINARYSENTINEL ++ [33])) = .error e) ∧
    AutoDe.auto_from_str (AutoDe.notationSentinelTrimmed ++ strCps "i42") =
      AutoDe.auto_from_str (AutoDe.notationSentinelTrimmed ++ ([10] ++ strCps "i42")) :=
  ⟨C8_dispatcher_whitespace_tolerance.1 (strCps "i42"),
   C8_dispatcher_whitespace_tolerance.2.1 [32] (strCps "i42") (by decide),
   C8_dispatcher_whitespace_tolerance.2.2.1 [32] _ (by decide),
   C8_dispatcher_whitespace_tolerance.2.2.2.1 [32] [33] (by decide) (by decide),
   C8_dispatcher_whitespace_tolerance.2.2.2.2 (strCps "i42")⟩

/-- C3: a URI value does not survive the XML round trip as a URI: the XML
decoder's `uri` arm builds `LLSDValue::String`, so decoding the `<uri>`
element produced by the XML encoder yields the `String` variant, which is a
different variant carrying the same payload. -/
theorem C3_xml_uri_decodes_to_string :
    XmlSer.to_string (.uri (strCps "http://x")) false =
      .ok (strCps "<?xml version=\"1.0\" encoding=\"UTF-8\"?>\n<llsd>\n<uri>http://x</uri>\n</llsd>") ∧
    XmlDe.from_str
      (strCps "<?xml version=\"1.0\" encoding=\"UTF-8\"?>\n<llsd>\n<uri>http://x</uri>\n</llsd>") =
      .ok (.string (strCps "http://x")) ∧
    LLSD.string (strCps "http://x") ≠ LLSD.uri (strCps "http://x") :=
  ⟨rfl, rfl, fun h => LLSD.noConfusion h⟩

end SerdeLLSD
